import Mathlib

/-!
Verification of the `term_image.image.common` module (term-image).

The definitions below are a shallow embedding of the Python source in
`src/term_image/image/common.py`: the geometry resolver
(`BaseImage._valid_size`), size setting (`BaseImage.set_size`), the scaled
size (`BaseImage.rendered_size`), the format-specifier checker
(`BaseImage._check_format_spec`), the animation generator
(`ImageIterator._animate`), the iterator state machine
(`ImageIterator.__next__` / `close`), and the draw orchestrator
(`BaseImage.draw` / `BaseImage._display_animated`).

Python `float` arithmetic is embedded as exact rational arithmetic (`ℚ`),
and Python's banker's rounding (`round`) as `pyRound`.
-/

namespace TermImage

/-- Python's built-in `round` (round half to even) on a rational. -/
def pyRound (q : ℚ) : ℤ :=
  let f : ℤ := ⌊q⌋
  let r : ℚ := q - f
  if r < 1 / 2 then f
  else if 1 / 2 < r then f + 1
  else if f % 2 = 0 then f else f + 1

/-- Python's `x or 1` on an integer: `0` is falsy and becomes `1`. -/
def orOne (x : ℤ) : ℤ := if x = 0 then 1 else x

/-- The unit-conversion interface between terminal cells and pixels that
`BaseImage._valid_size` uses: the abstract methods `_pixels_cols`,
`_pixels_lines` (both directions each) and the `_pixel_ratio` property. -/
structure RenderStyle where
  pxFromCols : ℤ → ℤ
  colsFromPx : ℤ → ℤ
  pxFromLines : ℤ → ℤ
  linesFromPx : ℤ → ℤ
  pixelRatio : ℚ

/-- `GraphicsImage`'s unit conversions, for a terminal cell of `cw × ch`
pixels (`get_cell_size() or (1, 2)` in the source; the library default is
`(1, 2)`, i.e. a cell ratio of 0.5).  `_pixels_cols(pixels=p)` is
`ceil(p // cw)`, and `ceil` of an integer is the integer itself, so it is
Python floor division; `_pixels_cols(cols=c)` is `c * cw`; likewise for
lines.  `GraphicsImage._pixel_ratio` is the constant `1.0`. -/
def graphicsStyle (cw ch : ℤ) : RenderStyle where
  pxFromCols := fun c => c * cw
  colsFromPx := fun p => Int.fdiv p cw
  pxFromLines := fun l => l * ch
  linesFromPx := fun p => Int.fdiv p ch
  pixelRatio := 1

/-- The `width` / `height` argument of `_valid_size` / `set_size`:
`None`, an `int`, or a member of the `Size` enum. -/
inductive SizeArg where
  | none
  | int (n : ℤ)
  | auto
  | fit
  | fitToWidth
  | original
  deriving DecidableEq, Repr

/-- `isinstance(x, int)` for a `SizeArg`. -/
def SizeArg.isInt : SizeArg → Bool
  | .int _ => true
  | _ => false

/-- Whether the argument is an `int` that fails `set_size`'s
`x <= 0` positivity check. -/
def SizeArg.isNonPositiveInt : SizeArg → Bool
  | .int n => decide (n ≤ 0)
  | _ => false

instance {ε α : Type} [DecidableEq ε] [DecidableEq α] :
    DecidableEq (Except ε α) := fun x y =>
  match x, y with
  | .ok a, .ok b =>
      if h : a = b then isTrue (by rw [h]) else isFalse (by simp [h])
  | .error a, .error b =>
      if h : a = b then isTrue (by rw [h]) else isFalse (by simp [h])
  | .ok _, .error _ => isFalse (by simp)
  | .error _, .ok _ => isFalse (by simp)

/-- The failure conditions raised out of `_valid_size` and `set_size`. -/
inductive SizeFailure where
  /-- `ValueError("Amount of available columns too small")` -/
  | availColsTooSmall
  /-- `ValueError("Amount of available lines too small")` -/
  | availLinesTooSmall
  /-- `InvalidSizeError("The resulting size (w, h) will not fit into 'maxsize' ...")`;
  this is the error the spec's taxonomy calls SizeError. -/
  | notFitMaxsize (w h : ℤ)
  /-- `ValueError("Cannot specify both width and height")` -/
  | bothWidthHeight
  /-- `ValueError("'width'/'height' must be positive")` -/
  | nonPositiveDim
  /-- `ValueError("'h_allow'/'v_allow' must be non-negative")` -/
  | negativeAllow
  /-- `ValueError("'maxsize' must contain two positive integers")` -/
  | badMaxsize
  /-- A `Size` enum member on one axis combined with an `int` on the other:
  the Python fallthrough would compare/return the enum member itself, which
  `set_size`'s validation makes unreachable. -/
  | typeErr
  deriving DecidableEq, Repr

/-- `columns, lines = maxsize or map(sub, get_terminal_size(), (h_allow, v_allow))`. -/
def availSpace (hAllow vAllow : ℤ) (maxsize : Option (ℤ × ℤ))
    (termW termH : ℤ) : ℤ × ℤ :=
  maxsize.getD (termW - hAllow, termH - vAllow)

/-- `_width_height_px(w=w)`: the unrounded proportional height (in pixels)
of a pixel width `w`, i.e. `(w / ori_width) * ori_height`. -/
def widthHeightPxOfW (oriW oriH : ℤ) (w : ℚ) : ℚ :=
  w / (oriW : ℚ) * (oriH : ℚ)

/-- `_width_height_px(h=h)`: the unrounded proportional width (in pixels)
of a pixel height `h`, i.e. `(h / ori_height) * ori_width`. -/
def widthHeightPxOfH (oriW oriH : ℤ) (h : ℚ) : ℚ :=
  h / (oriH : ℚ) * (oriW : ℚ)

/-- The `Size.ORIGINAL` branch of `_valid_size`. -/
def originalSize (st : RenderStyle) (oriW oriH : ℤ) : ℤ × ℤ :=
  (orOne (st.colsFromPx oriW),
   orOne (st.linesFromPx (pyRound ((oriH : ℚ) * st.pixelRatio))))

/-- The `Size.FIT_TO_WIDTH` branch of `_valid_size`. -/
def fitToWidthSize (st : RenderStyle) (oriW oriH maxWidth : ℤ) : ℤ × ℤ :=
  (orOne (st.colsFromPx maxWidth),
   orOne (st.linesFromPx
     (pyRound (widthHeightPxOfW oriW oriH (maxWidth : ℚ) * st.pixelRatio))))

/-- The `Size.FIT` computation of `_valid_size` (the fall-through case):
independent scale factors per axis, the smaller applied to both, the
non-binding axis corrected by the pixel ratio, clamped back to the
maximum, then rounded. -/
def fitSize (st : RenderStyle) (oriW oriH maxWidth maxHeight : ℤ) : ℤ × ℤ :=
  let x : ℚ := (maxWidth : ℚ) / (oriW : ℚ)
  let y : ℚ := (maxHeight : ℚ) / (oriH : ℚ)
  let wPx0 : ℚ := (oriW : ℚ) * min x y
  let hPx0 : ℚ := (oriH : ℚ) * min x y
  if x < y then
    let hPx1 : ℚ := hPx0 * st.pixelRatio
    let heightPx : ℚ := min hPx1 (maxHeight : ℚ)
    let widthPx : ℤ := pyRound (heightPx / hPx1 * wPx0)
    (orOne (st.colsFromPx widthPx), orOne (st.linesFromPx (pyRound heightPx)))
  else
    let wPx1 : ℚ := wPx0 / st.pixelRatio
    let widthPx : ℚ := min wPx1 (maxWidth : ℚ)
    let heightPx : ℤ := pyRound (widthPx / wPx1 * hPx0)
    (orOne (st.colsFromPx (pyRound widthPx)), orOne (st.linesFromPx heightPx))

/-- The condition under which `Size.AUTO` falls back to `Size.FIT`:
`ori_width > max_width or round(ori_height * pixel_ratio) > max_height`. -/
def autoPicksFit (st : RenderStyle) (oriW oriH maxWidth maxHeight : ℤ) : Prop :=
  maxWidth < oriW ∨ maxHeight < pyRound ((oriH : ℚ) * st.pixelRatio)

instance (st : RenderStyle) (oriW oriH maxWidth maxHeight : ℤ) :
    Decidable (autoPicksFit st oriW oriH maxWidth maxHeight) := by
  unfold autoPicksFit; infer_instance

/-- The fixed width and height of the `elif`-branches of `_valid_size`:
when one axis is an `int`, the other is derived by cross-multiplying the
original aspect ratio through the pixel ratio and rounding.  `Option.none`
when an enum member is mixed with an `int` (no branch applies). -/
def fixedPair (st : RenderStyle) (oriW oriH : ℤ) :
    SizeArg → SizeArg → Option (ℤ × ℤ)
  | .int wi, .int hi => some (wi, hi)
  | .int wi, .none =>
      some (wi, st.linesFromPx
        (pyRound (widthHeightPxOfW oriW oriH ((st.pxFromCols wi : ℤ) : ℚ) *
          st.pixelRatio)))
  | .none, .int hi =>
      some (st.colsFromPx
        (pyRound (widthHeightPxOfH oriW oriH ((st.pxFromLines hi : ℤ) : ℚ) /
          st.pixelRatio)), hi)
  | _, _ => Option.none

/-- `BaseImage._valid_size`, embedded over a `RenderStyle`.

The terminal geometry (`get_terminal_size()`) is passed as `termW`/`termH`.
Mirrors the source: compute the available space and the pixel maxima, then
dispatch on whether both of `width`/`height` are non-`int` (the automatic
branch, which checks the available space and the `AUTO` / `FIT_TO_WIDTH` /
`ORIGINAL` memberships before the `FIT` computation), else derive the
missing axis and apply the `maxsize` fit check. -/
def valid_size (st : RenderStyle) (oriW oriH : ℤ) (width height : SizeArg)
    (hAllow vAllow : ℤ) (maxsize : Option (ℤ × ℤ)) (termW termH : ℤ) :
    Except SizeFailure (ℤ × ℤ) :=
  let cl := availSpace hAllow vAllow maxsize termW termH
  let columns := cl.1
  let lines := cl.2
  let maxWidth := st.pxFromCols columns
  let maxHeight := st.pxFromLines lines
  if ¬ width.isInt ∧ ¬ height.isInt then
    if columns ≤ 0 then .error .availColsTooSmall
    else if lines ≤ 0 then .error .availLinesTooSmall
    else if width = .auto ∨ height = .auto then
      if autoPicksFit st oriW oriH maxWidth maxHeight then
        .ok (fitSize st oriW oriH maxWidth maxHeight)
      else
        .ok (originalSize st oriW oriH)
    else if width = .fitToWidth ∨ height = .fitToWidth then
      .ok (fitToWidthSize st oriW oriH maxWidth)
    else if width = .original ∨ height = .original then
      .ok (originalSize st oriW oriH)
    else
      .ok (fitSize st oriW oriH maxWidth maxHeight)
  else
    match fixedPair st oriW oriH width height with
    | Option.none => .error .typeErr
    | some (wi, hi) =>
        if maxsize.isSome ∧ (columns < wi ∨ lines < hi) then
          .error (.notFitMaxsize wi hi)
        else
          .ok (orOne wi, orOne hi)

/-- The sizing-related state of a `BaseImage` that `set_size` writes:
`_size`, `_fit_to_width`, `_h_allow`, `_v_allow`. -/
structure ImageState where
  size : ℤ × ℤ
  fitToWidth : Bool
  hAllow : ℤ
  vAllow : ℤ
  deriving DecidableEq, Repr

/-- `BaseImage.set_size`: validates the arguments in source order, then
stores the result of `_valid_size` together with the fit-to-width flag and
the allowances (`v_allow * (not fit_to_width)`).

The result pairs the state after the call with the failure, if any; the
source raises before any attribute assignment, so on failure the state is
returned unchanged. -/
def set_size (st : RenderStyle) (img : ImageState) (oriW oriH : ℤ)
    (width height : SizeArg) (hAllow vAllow : ℤ) (maxsize : Option (ℤ × ℤ))
    (termW termH : ℤ) : ImageState × Option SizeFailure :=
  if width ≠ .none ∧ height ≠ .none then
    (img, some .bothWidthHeight)
  else if width.isNonPositiveInt ∨ height.isNonPositiveInt then
    (img, some .nonPositiveDim)
  else if hAllow < 0 ∨ vAllow < 0 then
    (img, some .negativeAllow)
  else if maxsize.any (fun m => decide (m.1 ≤ 0) || decide (m.2 ≤ 0)) then
    (img, some .badMaxsize)
  else
    let ftw : Bool := width = .fitToWidth ∨ height = .fitToWidth
    match valid_size st oriW oriH width height hAllow
        (if ftw then 0 else vAllow) maxsize termW termH with
    | .error e => (img, some e)
    | .ok sz =>
        ({ size := sz, fitToWidth := ftw, hAllow := hAllow,
           vAllow := if ftw then 0 else vAllow }, Option.none)

/-- `BaseImage.rendered_size` for a fixed size: each axis of the stored
size is multiplied by the scale, rounded, and floored at 1 (`x or 1`). -/
def rendered_size (size : ℤ × ℤ) (scale : ℚ × ℚ) : ℤ × ℤ :=
  (orOne (pyRound ((size.1 : ℚ) * scale.1)),
   orOne (pyRound ((size.2 : ℚ) * scale.2)))

/-! ### The format-specifier mini-language (`_FORMAT_SPEC`, `_check_format_spec`) -/

/-- One of `[<|>]`. -/
def isHAlignChar (c : Char) : Bool := c == '<' || c == '|' || c == '>'

/-- One of `[-^_]`. -/
def isVAlignChar (c : Char) : Bool := c == '-' || c == '^' || c == '_'

/-- One of `[0-9a-fA-F]`. -/
def isHexChar (c : Char) : Bool :=
  c.isDigit || ('a' ≤ c && c ≤ 'f') || ('A' ≤ c && c ≤ 'F')

/-- Numeric value of a run of decimal digits (`int(...)` on a `\d+` match). -/
def digitsToNat (ds : List Char) : ℕ :=
  ds.foldl (fun acc c => 10 * acc + (c.toNat - '0'.toNat)) 0

/-- The inner alternative of the `#(\.\d+|[0-9a-fA-F]{6}|#)?` group. -/
inductive AlphaGroup where
  /-- `\.\d+`: an alpha-threshold fraction, the digits after the dot. -/
  | thresholdDigits (ds : List Char)
  /-- `[0-9a-fA-F]{6}`: a six-digit hex color. -/
  | hex (ds : List Char)
  /-- a second literal `#`. -/
  | hash
  deriving DecidableEq, Repr

/-- The capture groups of a full match of `_FORMAT_SPEC`
(`(([<|>])?(\d+)?)?(\.([-^_])?(\d+)?)?(#(\.\d+|[0-9a-fA-F]{6}|#)?)?(\+(.+))?`). -/
structure FormatGroups where
  hAlign : Option Char
  widthDigits : Option (List Char)
  dot : Bool
  vAlign : Option Char
  heightDigits : Option (List Char)
  alphaHash : Bool
  alphaInner : Option AlphaGroup
  styleSuffix : Option (List Char)
  deriving DecidableEq, Repr

/-- Greedy match of an optional `([<|>])?` alignment character. -/
def parseHAlign (cs : List Char) : Option Char × List Char :=
  match cs with
  | c :: rest => if isHAlignChar c then (some c, rest) else (Option.none, cs)
  | [] => (Option.none, cs)

/-- Greedy match of an optional `([-^_])?` alignment character. -/
def parseVAlign (cs : List Char) : Option Char × List Char :=
  match cs with
  | c :: rest => if isVAlignChar c then (some c, rest) else (Option.none, cs)
  | [] => (Option.none, cs)

/-- Greedy match of an optional `(\d+)?` maximal digit run. -/
def parseDigits (cs : List Char) : Option (List Char) × List Char :=
  (if (cs.takeWhile Char.isDigit).isEmpty then Option.none
   else some (cs.takeWhile Char.isDigit),
   cs.dropWhile Char.isDigit)

/-- Greedy match of the leading `(([<|>])?(\d+)?)?` group: optional
alignment character, then a maximal digit run. -/
def matchAlignWidth (cs : List Char) :
    Option Char × Option (List Char) × List Char :=
  let (ha, cs1) := parseHAlign cs
  let (wd, cs2) := parseDigits cs1
  (ha, wd, cs2)

/-- Greedy match of the `(\.\d+|[0-9a-fA-F]{6}|#)?` alternative after a `#`.
The three alternatives start with pairwise-distinct characters (`.`, a hex
digit, `#`), so committed matching agrees with the regex engine. -/
def matchAlphaInner (cs : List Char) : Option AlphaGroup × List Char :=
  match cs with
  | '.' :: rest =>
      let ds := rest.takeWhile Char.isDigit
      if ds.isEmpty then (Option.none, cs)
      else (some (.thresholdDigits ds), rest.dropWhile Char.isDigit)
  | '#' :: rest => (some .hash, rest)
  | c :: _ =>
      if isHexChar c ∧ (cs.take 6).length = 6 ∧ (cs.take 6).all isHexChar then
        (some (.hex (cs.take 6)), cs.drop 6)
      else (Option.none, cs)
  | [] => (Option.none, cs)

/-- Greedy match of the `(\.([-^_])?(\d+)?)?` group: a dot, then an
optional vertical alignment character, then a maximal digit run.
Returns (dot seen, v_align, height digits, rest). -/
def parseDotGroup (cs : List Char) :
    Bool × Option Char × Option (List Char) × List Char :=
  match cs with
  | c :: rest =>
      if c = '.' then
        let (va, rest1) := parseVAlign rest
        let (hd, cs2) := parseDigits rest1
        (true, va, hd, cs2)
      else (false, Option.none, Option.none, cs)
  | [] => (false, Option.none, Option.none, cs)

/-- Greedy match of the `(#(\.\d+|[0-9a-fA-F]{6}|#)?)?` group.
Returns (hash seen, inner alternative, rest). -/
def parseAlphaGroup (cs : List Char) :
    Bool × Option AlphaGroup × List Char :=
  match cs with
  | c :: rest =>
      if c = '#' then
        let (inner, rest1) := matchAlphaInner rest
        (true, inner, rest1)
      else (false, Option.none, cs)
  | [] => (false, Option.none, cs)

/-- Match of the final `(\+(.+))?` group against the whole remainder:
`some suffix` when the remainder is empty or `+` followed by at least one
character, `Option.none` (no full match) otherwise. -/
def parseSuffix (cs : List Char) : Option (Option (List Char)) :=
  match cs with
  | c :: rest =>
      if c = '+' then
        if rest.isEmpty then Option.none else some (some rest)
      else Option.none
  | [] => some Option.none

/-- `_FORMAT_SPEC.fullmatch(spec)`: `Option.none` when the specifier does
not match.  The regex's groups are matched left to right; every group
starts with a character no other group can consume at that point, so the
greedy committed scan is equivalent to the backtracking engine. -/
def matchFormatSpec (cs : List Char) : Option FormatGroups :=
  let (ha, wd, cs1) := matchAlignWidth cs
  let (dot, va, hd, cs2) := parseDotGroup cs1
  let (hash, inner, cs3) := parseAlphaGroup cs2
  match parseSuffix cs3 with
  | some suffix => some ⟨ha, wd, dot, va, hd, hash, inner, suffix⟩
  | Option.none => Option.none

/-- `_NO_VERTICAL_SPEC.fullmatch(spec)`
(`(([<|>])?(\d+)?)?\.(#(\.\d+|[0-9a-fA-F]{6})?)?`): a specifier with a dot
but nothing valid after it; such a specifier is rejected even though it
also matches `_FORMAT_SPEC`. -/
def matchNoVertical (cs : List Char) : Bool :=
  let (_, _, cs1) := matchAlignWidth cs
  match cs1 with
  | c :: rest =>
      if c = '.' then
        let cs2 :=
          match rest with
          | c2 :: r2 =>
              if c2 = '#' then
                let (inner, r3) := matchAlphaInner r2
                match inner with
                | some .hash => r2  -- a second `#` is not allowed here
                | some _ => r3
                | Option.none => r2
              else rest
          | [] => rest
        cs2.isEmpty
      else false
  | [] => false

/-- The translated `alpha` value of `_check_format_spec`:
`None` (bare `#`: terminal default background), a background color string,
or an alpha threshold. -/
inductive AlphaSetting where
  | noAlpha
  | color (s : List Char)
  | threshold (q : ℚ)
  deriving DecidableEq, Repr

/-- The failures raised by `_check_format_spec` / `_check_formatting`. -/
inductive FormatFailure where
  /-- `ValueError("Invalid format specifier (got: ...)")` naming the
  offending specifier. -/
  | invalidSpec (got : List Char)
  /-- `ValueError("Padding width must be positive (got: ...)")`. -/
  | nonPositiveWidth (got : ℕ)
  /-- `ValueError("Padding height must be positive (got: ...)")`. -/
  | nonPositiveHeight (got : ℕ)
  deriving DecidableEq, Repr

/-- The tuple returned by `_check_format_spec`:
`(h_align, width, v_align, height, alpha, style_args)`.  The style-specific
suffix (after `+`) is kept verbatim: its interpretation belongs to the
render-style subclasses. -/
structure FormatResult where
  hAlign : Option Char
  width : Option ℕ
  vAlign : Option Char
  height : Option ℕ
  alpha : AlphaSetting
  styleSuffix : Option (List Char)
  deriving DecidableEq, Repr

/-- `_ALPHA_THRESHOLD = 40 / 255`. -/
def alphaThresholdDefault : ℚ := 40 / 255

/-- `float("." + digits)`: the fractional value of the digits. -/
def fractionOfDigits (ds : List Char) : ℚ :=
  (digitsToNat ds : ℚ) / ((10 : ℚ) ^ ds.length)

/-- `BaseImage._check_format_spec`: full-match the specifier against
`_FORMAT_SPEC`, reject it if it also full-matches `_NO_VERTICAL_SPEC`,
validate the padding dimensions as in `_check_formatting`, and translate
the `#...` group into the `alpha` value. -/
def check_format_spec (cs : List Char) : Except FormatFailure FormatResult :=
  match matchFormatSpec cs with
  | Option.none => .error (.invalidSpec cs)
  | some g =>
      if matchNoVertical cs then .error (.invalidSpec cs)
      else
        let w := g.widthDigits.map digitsToNat
        let h := g.heightDigits.map digitsToNat
        match w with
        | some n =>
            if n = 0 then .error (.nonPositiveWidth n)
            else checkHeightAndAlpha g h
        | Option.none => checkHeightAndAlpha g h
where
  /-- The height check of `_check_formatting` followed by the alpha
  translation of `_check_format_spec`. -/
  checkHeightAndAlpha (g : FormatGroups) (h : Option ℕ) :
      Except FormatFailure FormatResult :=
    match h with
    | some n =>
        if n = 0 then .error (.nonPositiveHeight n)
        else .ok (buildResult g h)
    | Option.none => .ok (buildResult g h)
  /-- Assembles the result tuple, translating the alpha group. -/
  buildResult (g : FormatGroups) (h : Option ℕ) : FormatResult :=
    { hAlign := g.hAlign
      width := g.widthDigits.map digitsToNat
      vAlign := g.vAlign
      height := h
      alpha :=
        if g.alphaHash then
          match g.alphaInner with
          | Option.none => .noAlpha
          | some .hash => .color ['#']
          | some (.hex ds) => .color ('#' :: ds)
          | some (.thresholdDigits ds) => .threshold (fractionOfDigits ds)
        else .threshold alphaThresholdDefault
      styleSuffix := g.styleSuffix }

/-! ### The animation generator (`ImageIterator._animate`) and iterator -/

/-- A rendered-size fingerprint.  The source stores
`hash(image.rendered_size)`; the fingerprint is modelled as the size pair
itself. -/
abbrev SizeFp := ℤ × ℤ

/-- The state of the `_animate` generator between two yields, for a
definite frame count: the next frame number `n`, the loop countdown
`repeat` (negative means infinite), whether the generator is still in its
first, rendering loop (before the `EOFError` that switches it to the
cached loop), and the frame cache (one slot per offset, holding the frame
and the size fingerprint at render time; `(None, None)` initially). -/
@[ext]
structure AnimState where
  n : ℕ
  loopsLeft : ℤ
  renderingLoop : Bool
  cache : ℕ → Option (String × SizeFp)

/-- The initial `_animate` state: `n = 0`, `repeat` as given, the cache
initialised to `[(None,) * 2] * image.n_frames`. -/
def animInit (loopCount : ℤ) : AnimState :=
  { n := 0, loopsLeft := loopCount, renderingLoop := true,
    cache := fun _ => Option.none }

/-- One iteration of the cached loop of `_animate` at offset `s.n`:
`frame, size_hash = cache[n]`; if `hash(image.rendered_size) != size_hash`
the frame is re-rendered and the slot updated, else the cached frame is
yielded verbatim. -/
def cachedEmit (renderF : ℕ → SizeFp → String) (sz : SizeFp) (s : AnimState) :
    String × AnimState :=
  match s.cache s.n with
  | some (f, fp) =>
      if fp = sz then (f, { s with n := s.n + 1 })
      else
        let f2 := renderF s.n sz
        (f2, { s with
               n := s.n + 1
               cache := fun i => if i = s.n then some (f2, sz) else s.cache i })
  | Option.none =>
      let f2 := renderF s.n sz
      (f2, { s with
             n := s.n + 1
             cache := fun i => if i = s.n then some (f2, sz) else s.cache i })

/-- One `next()` on the (cached) `_animate` generator with a definite
frame count `nFrames ≥ 1`: `Option.none` means the generator returns
(`StopIteration`).  `renderF k sz` stands for
`image._format_render(image._render_image(img, ...))` with the image
seek position at `k` and current rendered size `sz`; `sz` is the
value of `image.rendered_size` during this advance.

In the first (rendering) loop a frame is rendered and cached; rendering
at `n = nFrames` raises `EOFError`, which resets `n`, decrements the
loop countdown if positive, and breaks into the cached loop, which then
produces the frame for offset 0 within the same `next()` call.  In the
cached loop, reaching `n = nFrames` wraps to 0 and decrements the
countdown; the generator returns once the countdown hits 0. -/
def animStep (nFrames : ℕ) (renderF : ℕ → SizeFp → String) (sz : SizeFp)
    (s : AnimState) : Option (String × AnimState) :=
  if s.loopsLeft = 0 then Option.none
  else if s.renderingLoop then
    if s.n < nFrames then
      let f := renderF s.n sz
      some (f, { s with
                 n := s.n + 1
                 cache := fun i => if i = s.n then some (f, sz) else s.cache i })
    else
      let l := if 0 < s.loopsLeft then s.loopsLeft - 1 else s.loopsLeft
      if l = 0 then Option.none
      else some (cachedEmit renderF sz
        { s with n := 0, loopsLeft := l, renderingLoop := false })
  else
    if s.n < nFrames then some (cachedEmit renderF sz s)
    else
      let l := if 0 < s.loopsLeft then s.loopsLeft - 1 else s.loopsLeft
      if l = 0 then Option.none
      else some (cachedEmit renderF sz { s with n := 0, loopsLeft := l })

/-- The `t`-th emission of the `_animate` generator (frames numbered from
0) together with the state after it, under the size schedule `σ` giving
`image.rendered_size` at each advance. -/
def animTrace (nFrames : ℕ) (renderF : ℕ → SizeFp → String) (σ : ℕ → SizeFp)
    (s : AnimState) : ℕ → Option (String × AnimState)
  | 0 => animStep nFrames renderF (σ 0) s
  | t + 1 =>
      match animTrace nFrames renderF σ s t with
      | some (_, s2) => animStep nFrames renderF (σ (t + 1)) s2
      | Option.none => Option.none

/-- The list of frames emitted by the `_animate` generator within `fuel`
advances (the generator itself terminates when the countdown reaches 0). -/
def animOutputs (nFrames : ℕ) (renderF : ℕ → SizeFp → String) (σ : ℕ → SizeFp)
    (t : ℕ) (s : AnimState) : ℕ → List String
  | 0 => []
  | fuel + 1 =>
      match animStep nFrames renderF (σ t) s with
      | Option.none => []
      | some (f, s2) => f :: animOutputs nFrames renderF σ (t + 1) s2 fuel

/-- The `ImageIterator` wrapper state: `_animator` (and the decoded-source
handle `_img`) exist until `close()` deletes them; a missing `_animator`
is what `__next__` and `close` observe as the closed state. -/
structure IterState where
  animator : Option AnimState
  imgOpen : Bool

/-- The two `StopIteration` conditions `ImageIterator.__next__` raises. -/
inductive IterStop where
  /-- `StopIteration("Iteration has reached the given repeat count")` -/
  | reachedRepeatCount
  /-- `StopIteration("Iterator exhausted or closed")`, from the
  `AttributeError` on the deleted `_animator`. -/
  | exhaustedOrClosed
  deriving DecidableEq, Repr

/-- `ImageIterator.close`: closes the generator and deletes `_animator`
and `_img`; a second call hits the `AttributeError` branch and does
nothing. -/
def iterClose (_s : IterState) : IterState :=
  { animator := Option.none, imgOpen := false }

/-- `ImageIterator.__next__`: advance the generator; its `StopIteration`
closes the iterator and reports the repeat count reached; a deleted
`_animator` (closed/exhausted iterator) reports exhausted-or-closed and
changes nothing. -/
def iterNext (nFrames : ℕ) (renderF : ℕ → SizeFp → String) (sz : SizeFp)
    (s : IterState) : Except IterStop String × IterState :=
  match s.animator with
  | Option.none => (.error .exhaustedOrClosed, s)
  | some a =>
      match animStep nFrames renderF sz a with
      | Option.none => (.error .reachedRepeatCount, iterClose s)
      | some (f, a2) => (.ok f, { s with animator := some a2 })

/-! ### The draw orchestrator (`draw`, `_display_animated`) -/

/-- Terminal-directed actions performed by `draw` /
`_display_animated`, in order. -/
inductive TermEvent where
  /-- printing a rendered frame (or any other payload text) -/
  | write (s : String)
  /-- the `"\r"` before the cursor-up sequence -/
  | cr
  /-- `CSI {n} A` -/
  | moveUp (n : ℤ)
  /-- `CSI {n} B` -/
  | moveDown (n : ℤ)
  /-- `time.sleep(...)` pacing between frames -/
  | sleep
  /-- `CSI ?25l` -/
  | hideCursor
  /-- `CSI ?25h` -/
  | showCursor
  /-- `COLOR_RESET` -/
  | resetColor
  /-- terminal echo disabled -/
  | echoOff
  /-- terminal echo restored -/
  | echoOn
  deriving DecidableEq, Repr

/-- `lines` in `_display_animated`:
`max((fmt or (None,))[-1] or get_terminal_size()[1] - self._v_allow,
self.rendered_height)` — the height of the formatted frame, i.e. the
padding height (defaulting to the available terminal height) floored at
the rendered height. -/
def displayLines (padHeight : Option ℤ) (termH vAllow renderedHeight : ℤ) : ℤ :=
  max (padHeight.getD (termH - vAllow)) renderedHeight

/-- The terminal-event trace of `_display_animated` over the frames the
animation generator yields: the first frame is printed directly; each
later frame is printed after the pacing sleep, a carriage return and a
cursor-up of `lines - 1`; the `finally` clause moves the cursor down by
`lines` past the drawn image. -/
def display_animated (frames : List String) (lines : ℤ) : List TermEvent :=
  match frames with
  | [] => [.moveDown lines]
  | f :: rest =>
      .write f ::
        (rest.flatMap fun fr => [.sleep, .cr, .moveUp (lines - 1), .write fr]) ++
        [.moveDown lines]

/-- The body-interruption point: the trace of an animated-draw body that
an exception or `KeyboardInterrupt` cuts after `k` events (the
`finally` clauses still run). -/
def truncatedBody (body : List TermEvent) (k : ℕ) : List TermEvent :=
  body.take k

/-- The event trace of the `render` closure inside `BaseImage.draw`:
hide the cursor only when `sys.stdout.isatty()`, run the body (possibly
cut short at event `k` by an exception or interrupt), and in the
`finally` clause reset the color and re-show the cursor (again only when
interactive). -/
def drawRenderTrace (isatty : Bool) (body : List TermEvent) (k : ℕ) :
    List TermEvent :=
  (if isatty then [TermEvent.hideCursor] else []) ++
    truncatedBody body k ++
    [TermEvent.resetColor] ++
    (if isatty then [TermEvent.showCursor] else [])

/-- Modelled from the spec: terminal-echo suppression around `draw`.
The echo handling of `draw` (the `echo_input` option) is implemented in
the Renderable API (`term_image/renderable/_renderable.py`), which is not
part of the sources here (only its tests are); per the spec it
"suppresses terminal echo ... only on an interactive output stream,
restoring ... on every exit path, including interruption", so the whole
draw is wrapped in echo-off/echo-on exactly when interactive. -/
def drawTrace (isatty : Bool) (body : List TermEvent) (k : ℕ) :
    List TermEvent :=
  (if isatty then [TermEvent.echoOff] else []) ++
    drawRenderTrace isatty body k ++
    (if isatty then [TermEvent.echoOn] else [])

/-- The terminal state affected by the control events: cursor visibility,
echo, and whether a color attribute may be active (any write may set
one; `COLOR_RESET` clears). -/
structure TermState where
  cursorVisible : Bool
  echo : Bool
  colored : Bool
  deriving DecidableEq, Repr

/-- Effect of one event on the terminal state. -/
def applyEvent (st : TermState) : TermEvent → TermState
  | .hideCursor => { st with cursorVisible := false }
  | .showCursor => { st with cursorVisible := true }
  | .echoOff => { st with echo := false }
  | .echoOn => { st with echo := true }
  | .resetColor => { st with colored := false }
  | .write _ => { st with colored := true }
  | _ => st

/-- Terminal state after a trace, from the initial state
(cursor visible, echo on, no color active). -/
def runEvents (es : List TermEvent) : TermState :=
  es.foldl applyEvent { cursorVisible := true, echo := true, colored := false }

/-- Events that only produce output but do not change cursor visibility,
echo, or reset the color: everything a drawn body emits. -/
def isOutputEvent : TermEvent → Bool
  | .write _ => true
  | .cr => true
  | .moveUp _ => true
  | .moveDown _ => true
  | .sleep => true
  | _ => false

/-- Whether an event is a frame write. -/
def isWriteEvent : TermEvent → Bool
  | .write _ => true
  | _ => false

/-- Whether an event is a cursor-up repositioning. -/
def isMoveUpEvent : TermEvent → Bool
  | .moveUp _ => true
  | _ => false

/-- Number of frame writes in a trace. -/
def writeCount (es : List TermEvent) : ℕ := (es.filter isWriteEvent).length

/-- Number of cursor-up repositionings in a trace. -/
def moveUpCount (es : List TermEvent) : ℕ :=
  (es.filter isMoveUpEvent).length

/-- The cache contents after the first `m` renders of the first
(rendering) loop of `_animate`: slot `i < m` holds the frame rendered at
offset `i` with the size fingerprint current at that advance. -/
def loop1Cache (renderF : ℕ → SizeFp → String) (σ : ℕ → SizeFp) (m : ℕ) :
    ℕ → Option (String × SizeFp) :=
  fun i => if i < m then some (renderF i (σ i), σ i) else Option.none

/-- The frame the cached loop emits for offset `j` on the second loop:
the loop-1 frame verbatim when the size fingerprint is unchanged, a fresh
render at the current size otherwise. -/
def loop2Frame (nFrames : ℕ) (renderF : ℕ → SizeFp → String)
    (σ : ℕ → SizeFp) (j : ℕ) : String :=
  if σ (nFrames + j) = σ j then renderF j (σ j)
  else renderF j (σ (nFrames + j))

/-- The cache contents after the second loop has visited offsets `< m`:
visited slots carry the loop-2 frame and the fingerprint current at the
loop-2 visit (unchanged when the sizes agree), the rest still carry their
loop-1 entries. -/
def loop2Cache (nFrames : ℕ) (renderF : ℕ → SizeFp → String)
    (σ : ℕ → SizeFp) (m : ℕ) : ℕ → Option (String × SizeFp) :=
  fun i =>
    if i < m then some (loop2Frame nFrames renderF σ i, σ (nFrames + i))
    else loop1Cache renderF σ nFrames i

/-! ## Theorems -/

theorem pyRound_nonneg {q : ℚ} (hq : 0 ≤ q) : 0 ≤ pyRound q := by
  have hf : (0 : ℤ) ≤ ⌊q⌋ := Int.floor_nonneg.mpr hq
  unfold pyRound
  dsimp only
  split
  · exact hf
  · split
    · omega
    · split
      · exact hf
      · omega

theorem orOne_pos {x : ℤ} (hx : 0 ≤ x) : 1 ≤ orOne x := by
  unfold orOne
  split
  · omega
  · omega

/-- Unfolding of `valid_size` when `Size.AUTO` appears on either axis and
the other axis is not an `int`: available-space checks, then the `AUTO`
dispatch between the `FIT` and `ORIGINAL` computations. -/
theorem valid_size_auto_unfold
    (st : RenderStyle) (oriW oriH : ℤ) (width height : SizeArg)
    (hAllow vAllow : ℤ) (maxsize : Option (ℤ × ℤ)) (termW termH : ℤ)
    (hauto : width = .auto ∨ height = .auto)
    (hw : width.isInt = false) (hh : height.isInt = false) :
    valid_size st oriW oriH width height hAllow vAllow maxsize termW termH =
      if (availSpace hAllow vAllow maxsize termW termH).1 ≤ 0 then
        .error .availColsTooSmall
      else if (availSpace hAllow vAllow maxsize termW termH).2 ≤ 0 then
        .error .availLinesTooSmall
      else if autoPicksFit st oriW oriH
          (st.pxFromCols (availSpace hAllow vAllow maxsize termW termH).1)
          (st.pxFromLines (availSpace hAllow vAllow maxsize termW termH).2) then
        .ok (fitSize st oriW oriH
          (st.pxFromCols (availSpace hAllow vAllow maxsize termW termH).1)
          (st.pxFromLines (availSpace hAllow vAllow maxsize termW termH).2))
      else .ok (originalSize st oriW oriH) := by
  rcases hauto with h | h <;> subst h
  · cases height <;> first
      | rfl
      | simp [SizeArg.isInt] at hh
  · cases width <;> first
      | rfl
      | simp [SizeArg.isInt] at hw

/-- Unfolding of `valid_size` at `Size.FIT`. -/
theorem valid_size_fit_unfold
    (st : RenderStyle) (oriW oriH : ℤ) (hAllow vAllow : ℤ)
    (maxsize : Option (ℤ × ℤ)) (termW termH : ℤ) :
    valid_size st oriW oriH .fit .fit hAllow vAllow maxsize termW termH =
      if (availSpace hAllow vAllow maxsize termW termH).1 ≤ 0 then
        .error .availColsTooSmall
      else if (availSpace hAllow vAllow maxsize termW termH).2 ≤ 0 then
        .error .availLinesTooSmall
      else
        .ok (fitSize st oriW oriH
          (st.pxFromCols (availSpace hAllow vAllow maxsize termW termH).1)
          (st.pxFromLines (availSpace hAllow vAllow maxsize termW termH).2)) :=
  rfl

/-- Unfolding of `valid_size` at `Size.ORIGINAL`. -/
theorem valid_size_original_unfold
    (st : RenderStyle) (oriW oriH : ℤ) (hAllow vAllow : ℤ)
    (maxsize : Option (ℤ × ℤ)) (termW termH : ℤ) :
    valid_size st oriW oriH .original .original hAllow vAllow maxsize
        termW termH =
      if (availSpace hAllow vAllow maxsize termW termH).1 ≤ 0 then
        .error .availColsTooSmall
      else if (availSpace hAllow vAllow maxsize termW termH).2 ≤ 0 then
        .error .availLinesTooSmall
      else .ok (originalSize st oriW oriH) :=
  rfl

/-- C1: for every image, terminal geometry, cell geometry and allowances,
resolving the size with `Size.AUTO` on either axis (the other axis not
fixed) returns exactly the result of `Size.ORIGINAL` when the original
size fits the available space on both axes, and exactly the result of
`Size.FIT` otherwise — errors included. -/
theorem auto_is_original_if_fits_else_fit
    (st : RenderStyle) (oriW oriH : ℤ) (width height : SizeArg)
    (hAllow vAllow : ℤ) (maxsize : Option (ℤ × ℤ)) (termW termH : ℤ)
    (hauto : width = .auto ∨ height = .auto)
    (hw : width.isInt = false) (hh : height.isInt = false) :
    valid_size st oriW oriH width height hAllow vAllow maxsize termW termH =
      if autoPicksFit st oriW oriH
          (st.pxFromCols (availSpace hAllow vAllow maxsize termW termH).1)
          (st.pxFromLines (availSpace hAllow vAllow maxsize termW termH).2) then
        valid_size st oriW oriH .fit .fit hAllow vAllow maxsize termW termH
      else
        valid_size st oriW oriH .original .original hAllow vAllow maxsize
          termW termH := by
  rw [valid_size_auto_unfold st oriW oriH width height hAllow vAllow maxsize
    termW termH hauto hw hh, valid_size_fit_unfold, valid_size_original_unfold]
  by_cases hc : (availSpace hAllow vAllow maxsize termW termH).1 ≤ 0
  · simp [hc]
  · by_cases hl : (availSpace hAllow vAllow maxsize termW termH).2 ≤ 0
    · simp [hc, hl]
    · by_cases ha : autoPicksFit st oriW oriH
        (st.pxFromCols (availSpace hAllow vAllow maxsize termW termH).1)
        (st.pxFromLines (availSpace hAllow vAllow maxsize termW termH).2)
      · simp [hc, hl, ha]
      · simp [hc, hl, ha]

/-- C1 witness: a concrete instantiation (graphics style with the default
cell size, a 100×50 image on an 80×24 terminal). -/
theorem auto_is_original_if_fits_else_fit_witness :
    ((SizeArg.auto = SizeArg.auto ∨ (SizeArg.none : SizeArg) = .auto) ∧
      SizeArg.auto.isInt = false ∧ SizeArg.none.isInt = false) ∧
    valid_size (graphicsStyle 1 2) 100 50 .auto .none 0 2 Option.none 80 24 =
      (if autoPicksFit (graphicsStyle 1 2) 100 50
          ((graphicsStyle 1 2).pxFromCols
            (availSpace 0 2 Option.none 80 24).1)
          ((graphicsStyle 1 2).pxFromLines
            (availSpace 0 2 Option.none 80 24).2) then
        valid_size (graphicsStyle 1 2) 100 50 .fit .fit 0 2 Option.none 80 24
      else
        valid_size (graphicsStyle 1 2) 100 50 .original .original 0 2
          Option.none 80 24) :=
  ⟨⟨Or.inl rfl, rfl, rfl⟩,
    auto_is_original_if_fits_else_fit (graphicsStyle 1 2) 100 50 .auto .none
      0 2 Option.none 80 24 (Or.inl rfl) rfl rfl⟩

/-- C9: when `maxsize` is supplied, the whole outcome of size resolution —
resolved size or error — is identical for any two pairs of allowance
values: the allowances do not enter the computation at all. -/
theorem maxsize_makes_allowances_irrelevant
    (st : RenderStyle) (oriW oriH : ℤ) (width height : SizeArg)
    (hAllow vAllow hAllow2 vAllow2 : ℤ) (m : ℤ × ℤ) (termW termH : ℤ) :
    valid_size st oriW oriH width height hAllow vAllow (some m) termW termH =
      valid_size st oriW oriH width height hAllow2 vAllow2 (some m)
        termW termH := rfl

/-- C10: `set_size` with both `width` and `height` given — whatever their
values, including valid positive integers or `Size` members — fails with
`ValueError("Cannot specify both width and height")` before touching any
state: the image state comes back unchanged. -/
theorem set_size_rejects_both_axes
    (st : RenderStyle) (img : ImageState) (oriW oriH : ℤ)
    (width height : SizeArg) (hAllow vAllow : ℤ) (maxsize : Option (ℤ × ℤ))
    (termW termH : ℤ) (hw : width ≠ .none) (hh : height ≠ .none) :
    set_size st img oriW oriH width height hAllow vAllow maxsize termW termH =
      (img, some .bothWidthHeight) := by
  unfold set_size
  rw [if_pos ⟨hw, hh⟩]

/-- C10 witness: both axes fixed with valid positive integers. -/
theorem set_size_rejects_both_axes_witness :
    ((SizeArg.int 3 ≠ SizeArg.none) ∧ (SizeArg.int 4 ≠ SizeArg.none)) ∧
    set_size (graphicsStyle 1 2) ⟨(5, 5), false, 0, 2⟩ 100 50 (.int 3)
        (.int 4) 0 2 Option.none 80 24 =
      (⟨(5, 5), false, 0, 2⟩, some .bothWidthHeight) :=
  ⟨⟨by decide, by decide⟩,
    set_size_rejects_both_axes (graphicsStyle 1 2) ⟨(5, 5), false, 0, 2⟩
      100 50 (.int 3) (.int 4) 0 2 Option.none 80 24 (by decide) (by decide)⟩

theorem graphics_colsFromPx_orOne_pos {cw ch p : ℤ} (hp : 0 ≤ p)
    (hcw : 0 ≤ cw) : 1 ≤ orOne ((graphicsStyle cw ch).colsFromPx p) :=
  orOne_pos (Int.fdiv_nonneg hp hcw)

theorem graphics_linesFromPx_orOne_pos {cw ch p : ℤ} (hp : 0 ≤ p)
    (hch : 0 ≤ ch) : 1 ≤ orOne ((graphicsStyle cw ch).linesFromPx p) :=
  orOne_pos (Int.fdiv_nonneg hp hch)

theorem widthHeightPxOfW_nonneg {oriW oriH : ℤ} {w : ℚ} (hw : 0 ≤ w)
    (how : 0 ≤ oriW) (hoh : 0 ≤ oriH) : 0 ≤ widthHeightPxOfW oriW oriH w := by
  unfold widthHeightPxOfW
  have h1 : (0 : ℚ) ≤ (oriW : ℚ) := by exact_mod_cast how
  have h2 : (0 : ℚ) ≤ (oriH : ℚ) := by exact_mod_cast hoh
  exact mul_nonneg (div_nonneg hw h1) h2

theorem widthHeightPxOfH_nonneg {oriW oriH : ℤ} {h : ℚ} (hh : 0 ≤ h)
    (how : 0 ≤ oriW) (hoh : 0 ≤ oriH) : 0 ≤ widthHeightPxOfH oriW oriH h := by
  unfold widthHeightPxOfH
  have h1 : (0 : ℚ) ≤ (oriW : ℚ) := by exact_mod_cast how
  have h2 : (0 : ℚ) ≤ (oriH : ℚ) := by exact_mod_cast hoh
  exact mul_nonneg (div_nonneg hh h2) h1

theorem originalSize_graphics_pos {cw ch oriW oriH : ℤ} (hcw : 0 ≤ cw)
    (hch : 0 ≤ ch) (how : 0 ≤ oriW) (hoh : 0 ≤ oriH) :
    1 ≤ (originalSize (graphicsStyle cw ch) oriW oriH).1 ∧
    1 ≤ (originalSize (graphicsStyle cw ch) oriW oriH).2 := by
  constructor
  · exact graphics_colsFromPx_orOne_pos how hcw
  · refine graphics_linesFromPx_orOne_pos (pyRound_nonneg ?_) hch
    have h2 : (0 : ℚ) ≤ (oriH : ℚ) := by exact_mod_cast hoh
    simpa [graphicsStyle] using h2

theorem fitToWidthSize_graphics_pos {cw ch oriW oriH maxWidth : ℤ}
    (hcw : 0 ≤ cw) (hch : 0 ≤ ch) (how : 0 ≤ oriW) (hoh : 0 ≤ oriH)
    (hmw : 0 ≤ maxWidth) :
    1 ≤ (fitToWidthSize (graphicsStyle cw ch) oriW oriH maxWidth).1 ∧
    1 ≤ (fitToWidthSize (graphicsStyle cw ch) oriW oriH maxWidth).2 := by
  constructor
  · exact graphics_colsFromPx_orOne_pos hmw hcw
  · refine graphics_linesFromPx_orOne_pos (pyRound_nonneg ?_) hch
    have hmw2 : (0 : ℚ) ≤ (maxWidth : ℚ) := by exact_mod_cast hmw
    have := widthHeightPxOfW_nonneg hmw2 how hoh
    simpa [graphicsStyle] using this

theorem fitSize_graphics_pos {cw ch oriW oriH maxWidth maxHeight : ℤ}
    (hcw : 0 ≤ cw) (hch : 0 ≤ ch) (how : 0 ≤ oriW) (hoh : 0 ≤ oriH)
    (hmw : 0 ≤ maxWidth) (hmh : 0 ≤ maxHeight) :
    1 ≤ (fitSize (graphicsStyle cw ch) oriW oriH maxWidth maxHeight).1 ∧
    1 ≤ (fitSize (graphicsStyle cw ch) oriW oriH maxWidth maxHeight).2 := by
  have hmw2 : (0 : ℚ) ≤ (maxWidth : ℚ) := by exact_mod_cast hmw
  have hmh2 : (0 : ℚ) ≤ (maxHeight : ℚ) := by exact_mod_cast hmh
  have how2 : (0 : ℚ) ≤ (oriW : ℚ) := by exact_mod_cast how
  have hoh2 : (0 : ℚ) ≤ (oriH : ℚ) := by exact_mod_cast hoh
  have hx : (0 : ℚ) ≤ (maxWidth : ℚ) / (oriW : ℚ) := div_nonneg hmw2 how2
  have hy : (0 : ℚ) ≤ (maxHeight : ℚ) / (oriH : ℚ) := div_nonneg hmh2 hoh2
  have hmin : (0 : ℚ) ≤ min ((maxWidth : ℚ) / (oriW : ℚ))
      ((maxHeight : ℚ) / (oriH : ℚ)) := le_min hx hy
  unfold fitSize
  dsimp only
  split
  · constructor
    · refine graphics_colsFromPx_orOne_pos (pyRound_nonneg ?_) hcw
      refine mul_nonneg (div_nonneg (le_min ?_ hmh2) ?_) (mul_nonneg how2 hmin)
      · exact mul_nonneg (mul_nonneg hoh2 hmin) (by norm_num [graphicsStyle])
      · exact mul_nonneg (mul_nonneg hoh2 hmin) (by norm_num [graphicsStyle])
    · refine graphics_linesFromPx_orOne_pos (pyRound_nonneg ?_) hch
      exact le_min (mul_nonneg (mul_nonneg hoh2 hmin)
        (by norm_num [graphicsStyle])) hmh2
  · constructor
    · refine graphics_colsFromPx_orOne_pos (pyRound_nonneg ?_) hcw
      refine le_min ?_ hmw2
      exact div_nonneg (mul_nonneg how2 hmin) (by norm_num [graphicsStyle])
    · refine graphics_linesFromPx_orOne_pos (pyRound_nonneg ?_) hch
      refine mul_nonneg (div_nonneg (le_min ?_ hmw2) ?_) (mul_nonneg hoh2 hmin)
      · exact div_nonneg (mul_nonneg how2 hmin) (by norm_num [graphicsStyle])
      · exact div_nonneg (mul_nonneg how2 hmin) (by norm_num [graphicsStyle])

/-- Non-negativity of the fixed/derived axes produced by `fixedPair` over
the graphics-style conversions, given positive fixed axes. -/
theorem fixedPair_graphics_nonneg {cw ch oriW oriH : ℤ}
    {width height : SizeArg} {wi hi : ℤ}
    (hcw : 0 < cw) (hch : 0 < ch) (how : 0 < oriW) (hoh : 0 < oriH)
    (hwp : ∀ n, width = .int n → 0 < n) (hhp : ∀ n, height = .int n → 0 < n)
    (hfp : fixedPair (graphicsStyle cw ch) oriW oriH width height =
      some (wi, hi)) :
    0 ≤ wi ∧ 0 ≤ hi := by
  cases width with
  | int wi0 =>
    cases height with
    | int hi0 =>
        simp only [fixedPair, Option.some.injEq, Prod.mk.injEq] at hfp
        obtain ⟨rfl, rfl⟩ := hfp
        exact ⟨(hwp wi0 rfl).le, (hhp hi0 rfl).le⟩
    | none =>
        simp only [fixedPair, Option.some.injEq, Prod.mk.injEq] at hfp
        obtain ⟨rfl, rfl⟩ := hfp
        refine ⟨(hwp wi0 rfl).le, ?_⟩
        refine Int.fdiv_nonneg (pyRound_nonneg ?_) hch.le
        have hpx : (0 : ℚ) ≤ (((graphicsStyle cw ch).pxFromCols wi0 : ℤ) : ℚ) := by
          have h0 : (0 : ℤ) ≤ (graphicsStyle cw ch).pxFromCols wi0 := by
            simp only [graphicsStyle]
            exact mul_nonneg (hwp wi0 rfl).le hcw.le
          exact_mod_cast h0
        have h1 := widthHeightPxOfW_nonneg hpx how.le hoh.le
        simpa [graphicsStyle] using h1
    | auto => simp [fixedPair] at hfp
    | fit => simp [fixedPair] at hfp
    | fitToWidth => simp [fixedPair] at hfp
    | original => simp [fixedPair] at hfp
  | none =>
    cases height with
    | int hi0 =>
        simp only [fixedPair, Option.some.injEq, Prod.mk.injEq] at hfp
        obtain ⟨rfl, rfl⟩ := hfp
        refine ⟨?_, (hhp hi0 rfl).le⟩
        refine Int.fdiv_nonneg (pyRound_nonneg ?_) hcw.le
        have hpx : (0 : ℚ) ≤ (((graphicsStyle cw ch).pxFromLines hi0 : ℤ) : ℚ) := by
          have h0 : (0 : ℤ) ≤ (graphicsStyle cw ch).pxFromLines hi0 := by
            simp only [graphicsStyle]
            exact mul_nonneg (hhp hi0 rfl).le hch.le
          exact_mod_cast h0
        have h1 := widthHeightPxOfH_nonneg hpx how.le hoh.le
        simpa [graphicsStyle] using h1
    | none => simp [fixedPair] at hfp
    | auto => simp [fixedPair] at hfp
    | fit => simp [fixedPair] at hfp
    | fitToWidth => simp [fixedPair] at hfp
    | original => simp [fixedPair] at hfp
  | auto => cases height <;> simp [fixedPair] at hfp
  | fit => cases height <;> simp [fixedPair] at hfp
  | fitToWidth => cases height <;> simp [fixedPair] at hfp
  | original => cases height <;> simp [fixedPair] at hfp

/-- If `valid_size` over the graphics-style conversions succeeds, both axes
of the result are at least 1, provided any fixed `int` axis is positive
(as `set_size` validates) and the image/cell dimensions are positive. -/
theorem valid_size_graphics_pos {cw ch oriW oriH : ℤ}
    {width height : SizeArg} {hAllow vAllow : ℤ} {maxsize : Option (ℤ × ℤ)}
    {termW termH : ℤ} {p : ℤ × ℤ}
    (hcw : 0 < cw) (hch : 0 < ch) (how : 0 < oriW) (hoh : 0 < oriH)
    (hwp : ∀ n, width = .int n → 0 < n) (hhp : ∀ n, height = .int n → 0 < n)
    (h : valid_size (graphicsStyle cw ch) oriW oriH width height hAllow
      vAllow maxsize termW termH = .ok p) :
    1 ≤ p.1 ∧ 1 ≤ p.2 := by
  unfold valid_size at h
  set cl := availSpace hAllow vAllow maxsize termW termH with hcl
  by_cases hg : ¬ width.isInt ∧ ¬ height.isInt
  · rw [if_pos hg] at h
    split_ifs at h with h1 h2 h3 h4 h5 h6
    all_goals
      have hmw : (0 : ℤ) ≤ (graphicsStyle cw ch).pxFromCols cl.1 := by
        simp only [graphicsStyle]
        exact mul_nonneg (by omega) hcw.le
    all_goals
      have hmh : (0 : ℤ) ≤ (graphicsStyle cw ch).pxFromLines cl.2 := by
        simp only [graphicsStyle]
        exact mul_nonneg (by omega) hch.le
    · -- AUTO → FIT
      injection h with h
      subst h
      exact fitSize_graphics_pos hcw.le hch.le how.le hoh.le hmw hmh
    · -- AUTO → ORIGINAL
      injection h with h
      subst h
      exact originalSize_graphics_pos hcw.le hch.le how.le hoh.le
    · -- FIT_TO_WIDTH
      injection h with h
      subst h
      exact fitToWidthSize_graphics_pos hcw.le hch.le how.le hoh.le hmw
    · -- ORIGINAL
      injection h with h
      subst h
      exact originalSize_graphics_pos hcw.le hch.le how.le hoh.le
    · -- FIT
      injection h with h
      subst h
      exact fitSize_graphics_pos hcw.le hch.le how.le hoh.le hmw hmh
  · rw [if_neg hg] at h
    rcases hfp : fixedPair (graphicsStyle cw ch) oriW oriH width height with
      _ | ⟨wi, hi⟩
    · rw [hfp] at h
      exact Except.noConfusion h
    · rw [hfp] at h
      dsimp only at h
      split_ifs at h with hms
      injection h with h
      subst h
      obtain ⟨hwi, hhi⟩ :=
        fixedPair_graphics_nonneg hcw hch how hoh hwp hhp hfp
      exact ⟨orOne_pos hwi, orOne_pos hhi⟩

/-- C2: whenever size resolution succeeds (through `set_size`, which
performs the argument validation), the stored size is a pair of integers
with both axes at least 1; in particular `Exact(width=1)` on a 2:1 (W:H)
original with cell ratio 0.5 (graphics conversions at the default cell
size `(1, 2)`) resolves to `(1, 1)` — the height is floored at 1, not 0;
and the scaled `rendered_size` is likewise floored at 1 on each axis. -/
theorem resolved_size_both_axes_at_least_one :
    (∀ (cw ch oriW oriH : ℤ) (img : ImageState) (width height : SizeArg)
        (hAllow vAllow : ℤ) (maxsize : Option (ℤ × ℤ)) (termW termH : ℤ)
        (st2 : ImageState),
        0 < cw → 0 < ch → 0 < oriW → 0 < oriH →
        set_size (graphicsStyle cw ch) img oriW oriH width height hAllow
            vAllow maxsize termW termH = (st2, Option.none) →
        1 ≤ st2.size.1 ∧ 1 ≤ st2.size.2) ∧
    valid_size (graphicsStyle 1 2) 2 1 (.int 1) .none 0 2 Option.none 80 24 =
      .ok (1, 1) ∧
    (∀ (size : ℤ × ℤ) (scale : ℚ × ℚ),
        1 ≤ size.1 → 1 ≤ size.2 → 0 < scale.1 → 0 < scale.2 →
        1 ≤ (rendered_size size scale).1 ∧ 1 ≤ (rendered_size size scale).2) := by
  refine ⟨?_, by with_unfolding_all decide, ?_⟩
  · intro cw ch oriW oriH img width height hAllow vAllow maxsize termW termH
      st2 hcw hch how hoh h
    unfold set_size at h
    split_ifs at h with hb hnp hna hbm
    any_goals simp at h
    split at h
    · simp at h
    · rename_i sz heq
      injection h with h1 h2
      have hwp : ∀ n, width = SizeArg.int n → 0 < n := by
        intro n hn
        by_contra h0
        exact hnp (Or.inl (by simp [hn, SizeArg.isNonPositiveInt]; omega))
      have hhp : ∀ n, height = SizeArg.int n → 0 < n := by
        intro n hn
        by_contra h0
        exact hnp (Or.inr (by simp [hn, SizeArg.isNonPositiveInt]; omega))
      have hpos := valid_size_graphics_pos hcw hch how hoh hwp hhp heq
      rw [← h1]
      exact hpos
  · intro size scale hs1 hs2 hc1 hc2
    constructor
    · refine orOne_pos (pyRound_nonneg ?_)
      have h1 : (0 : ℚ) ≤ (size.1 : ℚ) := by exact_mod_cast (by omega : (0:ℤ) ≤ size.1)
      exact mul_nonneg h1 hc1.le
    · refine orOne_pos (pyRound_nonneg ?_)
      have h2 : (0 : ℚ) ≤ (size.2 : ℚ) := by exact_mod_cast (by omega : (0:ℤ) ≤ size.2)
      exact mul_nonneg h2 hc2.le

/-- C2 witness: the universally-quantified conjuncts applied at concrete
inputs (graphics conversions at cell size `(1, 2)`, a 2:1 original, width
fixed to 1 column, full scale). -/
theorem resolved_size_both_axes_at_least_one_witness :
    (1 ≤ (⟨(1, 1), false, 0, 2⟩ : ImageState).size.1 ∧
      1 ≤ (⟨(1, 1), false, 0, 2⟩ : ImageState).size.2) ∧
    (1 ≤ (rendered_size (1, 1) (1, 1)).1 ∧
      1 ≤ (rendered_size (1, 1) (1, 1)).2) :=
  ⟨resolved_size_both_axes_at_least_one.1 1 2 2 1 ⟨(5, 5), false, 0, 2⟩
      (.int 1) .none 0 2 Option.none 80 24 ⟨(1, 1), false, 0, 2⟩
      (by decide) (by decide) (by decide) (by decide)
      (by with_unfolding_all decide),
    resolved_size_both_axes_at_least_one.2.2 (1, 1) (1, 1)
      (by decide) (by decide) (by norm_num) (by norm_num)⟩

theorem valid_size_nonint_cols_err {st : RenderStyle} {oriW oriH : ℤ}
    {width height : SizeArg} {hAllow vAllow : ℤ} {maxsize : Option (ℤ × ℤ)}
    {termW termH : ℤ} (hg : ¬ width.isInt ∧ ¬ height.isInt)
    (hc : (availSpace hAllow vAllow maxsize termW termH).1 ≤ 0) :
    valid_size st oriW oriH width height hAllow vAllow maxsize termW termH =
      .error .availColsTooSmall := by
  unfold valid_size
  rw [if_pos hg, if_pos hc]

theorem valid_size_nonint_lines_err {st : RenderStyle} {oriW oriH : ℤ}
    {width height : SizeArg} {hAllow vAllow : ℤ} {maxsize : Option (ℤ × ℤ)}
    {termW termH : ℤ} (hg : ¬ width.isInt ∧ ¬ height.isInt)
    (hc : ¬ (availSpace hAllow vAllow maxsize termW termH).1 ≤ 0)
    (hl : (availSpace hAllow vAllow maxsize termW termH).2 ≤ 0) :
    valid_size st oriW oriH width height hAllow vAllow maxsize termW termH =
      .error .availLinesTooSmall := by
  unfold valid_size
  rw [if_pos hg, if_neg hc, if_pos hl]

theorem valid_size_nonint_ok {st : RenderStyle} {oriW oriH : ℤ}
    {width height : SizeArg} {hAllow vAllow : ℤ} {maxsize : Option (ℤ × ℤ)}
    {termW termH : ℤ} (hg : ¬ width.isInt ∧ ¬ height.isInt)
    (hc : ¬ (availSpace hAllow vAllow maxsize termW termH).1 ≤ 0)
    (hl : ¬ (availSpace hAllow vAllow maxsize termW termH).2 ≤ 0) :
    ∃ p, valid_size st oriW oriH width height hAllow vAllow maxsize termW
      termH = .ok p := by
  unfold valid_size
  rw [if_pos hg, if_neg hc, if_neg hl]
  split_ifs <;> exact ⟨_, rfl⟩

theorem valid_size_int_branch {st : RenderStyle} {oriW oriH : ℤ}
    {width height : SizeArg} {hAllow vAllow : ℤ} {maxsize : Option (ℤ × ℤ)}
    {termW termH : ℤ} {p : ℤ × ℤ}
    (hg : ¬ (¬ width.isInt ∧ ¬ height.isInt))
    (hfp : fixedPair st oriW oriH width height = some p) :
    valid_size st oriW oriH width height hAllow vAllow maxsize termW termH =
      if maxsize.isSome ∧
          ((availSpace hAllow vAllow maxsize termW termH).1 < p.1 ∨
            (availSpace hAllow vAllow maxsize termW termH).2 < p.2) then
        .error (.notFitMaxsize p.1 p.2)
      else .ok (orOne p.1, orOne p.2) := by
  obtain ⟨p1, p2⟩ := p
  unfold valid_size
  rw [if_neg hg, hfp]

/-- C7 (amended): size resolution fails in exactly two situations, and
with these error kinds:

* during automatic sizing — neither axis fixed as an `int` — when the
  available space (columns or lines; terminal size minus allowances, or
  `maxsize` itself when supplied) is non-positive, raising `ValueError`
  ("Amount of available columns/lines too small"), not `SizeError`;
* when `maxsize` is supplied together with a fixed width or height and
  the resulting size does not fit within it, raising the
  `InvalidSizeError` (`SizeError`).

In both cases no size is returned; no other failure is possible (the
`Size`-member-with-`int` mix being excluded, as `set_size` validates). -/
theorem valid_size_failure_characterization
    (st : RenderStyle) (oriW oriH : ℤ) (width height : SizeArg)
    (hAllow vAllow : ℤ) (maxsize : Option (ℤ × ℤ)) (termW termH : ℤ)
    (hcombo : width.isInt ∨ height.isInt →
      (fixedPair st oriW oriH width height).isSome) :
    (∀ e, valid_size st oriW oriH width height hAllow vAllow maxsize
        termW termH = .error e →
      e = .availColsTooSmall ∨ e = .availLinesTooSmall ∨
        ∃ w2 h2, e = .notFitMaxsize w2 h2) ∧
    ((valid_size st oriW oriH width height hAllow vAllow maxsize termW
        termH = .error .availColsTooSmall ∨
      valid_size st oriW oriH width height hAllow vAllow maxsize termW
        termH = .error .availLinesTooSmall) ↔
      (¬ width.isInt ∧ ¬ height.isInt ∧
        ((availSpace hAllow vAllow maxsize termW termH).1 ≤ 0 ∨
          (availSpace hAllow vAllow maxsize termW termH).2 ≤ 0))) ∧
    ((∃ w2 h2, valid_size st oriW oriH width height hAllow vAllow maxsize
        termW termH = .error (.notFitMaxsize w2 h2)) ↔
      (maxsize.isSome ∧
        ∃ p, fixedPair st oriW oriH width height = some p ∧
          ((availSpace hAllow vAllow maxsize termW termH).1 < p.1 ∨
            (availSpace hAllow vAllow maxsize termW termH).2 < p.2))) := by
  by_cases hg : ¬ width.isInt ∧ ¬ height.isInt
  · by_cases hc : (availSpace hAllow vAllow maxsize termW termH).1 ≤ 0
    · rw [valid_size_nonint_cols_err hg hc]
      refine ⟨?_, ?_, ?_⟩
      · intro e he
        injection he with he
        exact Or.inl he.symm
      · simp [hg.1, hg.2, hc]
      · constructor
        · rintro ⟨w2, h2, he⟩
          injection he with he
          exact absurd he (by simp)
        · rintro ⟨hms, p, hfp, -⟩
          rcases hg with ⟨hg1, hg2⟩
          rcases width with _ | n | _ | _ | _ | _ <;>
            rcases height with _ | n2 | _ | _ | _ | _ <;>
            simp_all [SizeArg.isInt, fixedPair]
    · by_cases hl : (availSpace hAllow vAllow maxsize termW termH).2 ≤ 0
      · rw [valid_size_nonint_lines_err hg hc hl]
        refine ⟨?_, ?_, ?_⟩
        · intro e he
          injection he with he
          exact Or.inr (Or.inl he.symm)
        · simp [hg.1, hg.2, hc, hl]
        · constructor
          · rintro ⟨w2, h2, he⟩
            injection he with he
            exact absurd he (by simp)
          · rintro ⟨hms, p, hfp, -⟩
            rcases hg with ⟨hg1, hg2⟩
            rcases width with _ | n | _ | _ | _ | _ <;>
              rcases height with _ | n2 | _ | _ | _ | _ <;>
              simp_all [SizeArg.isInt, fixedPair]
      · obtain ⟨p, hp⟩ := valid_size_nonint_ok hg hc hl
        rw [hp]
        refine ⟨?_, ?_, ?_⟩
        · intro e he
          exact Except.noConfusion he
        · simp [hc, hl]
        · constructor
          · rintro ⟨w2, h2, he⟩
            exact Except.noConfusion he
          · rintro ⟨hms, q, hfp, -⟩
            rcases hg with ⟨hg1, hg2⟩
            rcases width with _ | n | _ | _ | _ | _ <;>
              rcases height with _ | n2 | _ | _ | _ | _ <;>
              simp_all [SizeArg.isInt, fixedPair]
  · have hint : width.isInt ∨ height.isInt := by
      by_cases hw1 : width.isInt <;> by_cases hh1 : height.isInt <;> simp_all
    obtain ⟨p, hfp⟩ := Option.isSome_iff_exists.mp (hcombo hint)
    rw [valid_size_int_branch hg hfp]
    by_cases hms : maxsize.isSome ∧
        ((availSpace hAllow vAllow maxsize termW termH).1 < p.1 ∨
          (availSpace hAllow vAllow maxsize termW termH).2 < p.2)
    · rw [if_pos hms]
      refine ⟨?_, ?_, ?_⟩
      · intro e he
        injection he with he
        exact Or.inr (Or.inr ⟨p.1, p.2, he.symm⟩)
      · constructor
        · rintro (he | he) <;> injection he with he <;>
            exact absurd he (by simp)
        · rintro ⟨hw1, hh1, -⟩
          rcases hint with hi | hi
          · simp [hi] at hw1
          · simp [hi] at hh1
      · constructor
        · rintro -
          exact ⟨hms.1, p, hfp, hms.2⟩
        · rintro -
          exact ⟨p.1, p.2, rfl⟩
    · rw [if_neg hms]
      refine ⟨?_, ?_, ?_⟩
      · intro e he
        exact Except.noConfusion he
      · constructor
        · rintro (he | he) <;> exact Except.noConfusion he
        · rintro ⟨hw1, hh1, -⟩
          rcases hint with hi | hi
          · simp [hi] at hw1
          · simp [hi] at hh1
      · constructor
        · rintro ⟨w2, h2, he⟩
          exact Except.noConfusion he
        · rintro ⟨hms1, q, hfpq, hlt⟩
          rw [hfp] at hfpq
          injection hfpq with hfpq
          subst hfpq
          exact absurd ⟨hms1, hlt⟩ hms

/-- C7 counterexample to the claim as stated: with a fixed width of 1
column, a horizontal allowance that makes the available columns negative
(80-column terminal, `h_allow = 100`) and no `maxsize`, size resolution
does **not** fail — it returns `(1, 1)` — even though the available space
is non-positive. -/
theorem valid_size_failure_claim_counterexample :
    valid_size (graphicsStyle 1 2) 2 1 (.int 1) .none 100 0 Option.none
        80 24 = .ok (1, 1) ∧
    (availSpace 100 0 Option.none 80 24).1 ≤ 0 :=
  ⟨by with_unfolding_all decide, by decide⟩

/-- C7 witness: the characterization applied at a concrete input — the
graphics style at cell size `(1, 2)`, automatic sizing on a 1-column
available space made non-positive by the allowance. -/
theorem valid_size_failure_characterization_witness :
    ((SizeArg.fit.isInt ∨ SizeArg.none.isInt) →
      (fixedPair (graphicsStyle 1 2) 2 1 .fit .none).isSome) ∧
    (valid_size (graphicsStyle 1 2) 2 1 .fit .none 100 0 Option.none 80 24 =
        .error .availColsTooSmall ∨
      valid_size (graphicsStyle 1 2) 2 1 .fit .none 100 0 Option.none 80 24 =
        .error .availLinesTooSmall) :=
  ⟨by decide,
    (valid_size_failure_characterization (graphicsStyle 1 2) 2 1 .fit .none
      100 0 Option.none 80 24 (by decide)).2.1.mpr
      (by refine ⟨by decide, by decide, Or.inl ?_⟩; decide)⟩

theorem animStep_rendering (nFrames : ℕ) (renderF : ℕ → SizeFp → String)
    (sz : SizeFp) (s : AnimState) (h0 : s.loopsLeft ≠ 0)
    (hrl : s.renderingLoop = true) (hn : s.n < nFrames) :
    animStep nFrames renderF sz s =
      some (renderF s.n sz,
        { s with
          n := s.n + 1
          cache := fun i =>
            if i = s.n then some (renderF s.n sz, sz) else s.cache i }) := by
  unfold animStep
  rw [if_neg h0, hrl]
  simp [hn]

theorem animStep_cached_inner (nFrames : ℕ) (renderF : ℕ → SizeFp → String)
    (sz : SizeFp) (s : AnimState) (h0 : s.loopsLeft ≠ 0)
    (hrl : s.renderingLoop = false) (hn : s.n < nFrames) :
    animStep nFrames renderF sz s = some (cachedEmit renderF sz s) := by
  unfold animStep
  rw [if_neg h0, hrl]
  simp [hn]

theorem animStep_eof (nFrames : ℕ) (renderF : ℕ → SizeFp → String)
    (sz : SizeFp) (s : AnimState) (h0 : 0 < s.loopsLeft)
    (h1 : s.loopsLeft ≠ 1) (hrl : s.renderingLoop = true)
    (hn : ¬ s.n < nFrames) :
    animStep nFrames renderF sz s =
      some (cachedEmit renderF sz
        { s with
          n := 0
          loopsLeft := s.loopsLeft - 1
          renderingLoop := false }) := by
  unfold animStep
  rw [if_neg (by omega : ¬ s.loopsLeft = 0), hrl]
  simp only [if_true, hn, if_false]
  rw [if_pos h0, if_neg (by omega : ¬ s.loopsLeft - 1 = 0)]

theorem cachedEmit_hit (renderF : ℕ → SizeFp → String) (sz : SizeFp)
    (s : AnimState) (f : String) (hslot : s.cache s.n = some (f, sz)) :
    cachedEmit renderF sz s = (f, { s with n := s.n + 1 }) := by
  unfold cachedEmit
  rw [hslot]
  simp

theorem cachedEmit_miss (renderF : ℕ → SizeFp → String) (sz : SizeFp)
    (s : AnimState) (f : String) (fp : SizeFp)
    (hslot : s.cache s.n = some (f, fp)) (hne : fp ≠ sz) :
    cachedEmit renderF sz s =
      (renderF s.n sz,
        { s with
          n := s.n + 1
          cache := fun i =>
            if i = s.n then some (renderF s.n sz, sz) else s.cache i }) := by
  unfold cachedEmit
  rw [hslot]
  simp [hne]

/-- First-loop characterization: the `k`-th emission (for `k < n_frames`)
is a fresh render of offset `k` at the then-current size, and the cache
holds exactly the first `k + 1` rendered frames with their fingerprints. -/
theorem animTrace_loop1 (nFrames : ℕ) (renderF : ℕ → SizeFp → String)
    (σ : ℕ → SizeFp) (r : ℤ) (hr : r ≠ 0) :
    ∀ k, k < nFrames →
      animTrace nFrames renderF σ (animInit r) k =
        some (renderF k (σ k),
          ⟨k + 1, r, true, loop1Cache renderF σ (k + 1)⟩) := by
  intro k
  induction k with
  | zero =>
      intro hk
      show animStep nFrames renderF (σ 0) (animInit r) = _
      rw [animStep_rendering nFrames renderF (σ 0) (animInit r) hr rfl hk]
      refine congrArg some (Prod.ext rfl ?_)
      ext i
      · rfl
      · rfl
      · rfl
      · simp only [animInit, loop1Cache]
        by_cases h1 : i = 0
        · subst h1
          simp
        · simp [h1, Nat.lt_one_iff]
  | succ k ih =>
      intro hk
      show (match animTrace nFrames renderF σ (animInit r) k with
        | some (_, s2) => animStep nFrames renderF (σ (k + 1)) s2
        | Option.none => Option.none) = _
      rw [ih (by omega)]
      dsimp only
      rw [animStep_rendering nFrames renderF (σ (k + 1))
        ⟨k + 1, r, true, loop1Cache renderF σ (k + 1)⟩ hr rfl hk]
      refine congrArg some (Prod.ext rfl ?_)
      ext i
      · rfl
      · rfl
      · rfl
      · simp only [loop1Cache]
        rcases lt_trichotomy i (k + 1) with h1 | h1 | h1
        · rw [if_neg (by omega), if_pos h1, if_pos (by omega)]
        · subst h1
          simp
        · rw [if_neg (by omega), if_neg (by omega), if_neg (by omega)]

/-- Second-loop characterization: with an initial repeat count of at
least 2, the emission at step `n_frames + j` (i.e. for offset `j` on the
second loop, `j < n_frames`) is `loop2Frame`: the cached loop-1 frame
verbatim when the size fingerprint is unchanged since the loop-1 visit,
a fresh render otherwise; and the cache slots visited so far are updated
accordingly. -/
theorem animTrace_loop2 (nFrames : ℕ) (renderF : ℕ → SizeFp → String)
    (σ : ℕ → SizeFp) (r : ℤ) (hnf : 1 ≤ nFrames) (hr : 2 ≤ r) :
    ∀ j, j < nFrames →
      animTrace nFrames renderF σ (animInit r) (nFrames + j) =
        some (loop2Frame nFrames renderF σ j,
          ⟨j + 1, r - 1, false, loop2Cache nFrames renderF σ (j + 1)⟩) := by
  intro j
  induction j with
  | zero =>
      intro hj
      obtain ⟨m, rfl⟩ : ∃ m, nFrames = m + 1 := ⟨nFrames - 1, by omega⟩
      show (match animTrace (m + 1) renderF σ (animInit r) m with
        | some (_, s2) => animStep (m + 1) renderF (σ (m + 1)) s2
        | Option.none => Option.none) = _
      rw [animTrace_loop1 (m + 1) renderF σ r (by omega) m (by omega)]
      dsimp only
      rw [animStep_eof (m + 1) renderF (σ (m + 1))
        ⟨m + 1, r, true, loop1Cache renderF σ (m + 1)⟩
        (by show (0 : ℤ) < r; omega) (by show r ≠ 1; omega)
        rfl (by show ¬ m + 1 < m + 1; omega)]
      have hslot : (({ (⟨m + 1, r, true, loop1Cache renderF σ (m + 1)⟩ :
          AnimState) with
            n := 0
            loopsLeft := r - 1
            renderingLoop := false } : AnimState).cache 0) =
          some (renderF 0 (σ 0), σ 0) := by
        show loop1Cache renderF σ (m + 1) 0 = _
        simp [loop1Cache]
      by_cases hsz : σ 0 = σ (m + 1)
      · have hslot2 : (({ (⟨m + 1, r, true, loop1Cache renderF σ (m + 1)⟩ :
            AnimState) with
              n := 0
              loopsLeft := r - 1
              renderingLoop := false } : AnimState).cache 0) =
            some (renderF 0 (σ 0), σ (m + 1)) := by
          rw [hslot]
          exact congrArg some (Prod.ext rfl hsz)
        rw [cachedEmit_hit renderF (σ (m + 1)) _ (renderF 0 (σ 0)) hslot2]
        refine congrArg some (Prod.ext ?_ ?_)
        · show renderF 0 (σ 0) = loop2Frame (m + 1) renderF σ 0
          simp only [loop2Frame, Nat.add_zero]
          rw [if_pos hsz.symm]
        · refine AnimState.ext rfl rfl rfl ?_
          funext i
          show loop1Cache renderF σ (m + 1) i =
            loop2Cache (m + 1) renderF σ 1 i
          simp only [loop2Cache, loop1Cache, loop2Frame, Nat.add_zero]
          by_cases h1 : i = 0
          · subst h1
            rw [if_pos (show (0 : ℕ) < m + 1 by omega),
              if_pos (show (0 : ℕ) < 1 by omega), if_pos hsz.symm]
            exact congrArg some (Prod.ext rfl hsz)
          · rw [if_neg (show ¬ i < 1 by omega)]
      · rw [cachedEmit_miss renderF (σ (m + 1)) _ (renderF 0 (σ 0)) (σ 0)
          hslot hsz]
        refine congrArg some (Prod.ext ?_ ?_)
        · show renderF 0 (σ (m + 1)) = loop2Frame (m + 1) renderF σ 0
          simp only [loop2Frame, Nat.add_zero]
          rw [if_neg (fun h => hsz h.symm)]
        · refine AnimState.ext rfl rfl rfl ?_
          funext i
          show (if i = 0 then some (renderF 0 (σ (m + 1)), σ (m + 1))
              else loop1Cache renderF σ (m + 1) i) =
            loop2Cache (m + 1) renderF σ 1 i
          simp only [loop2Cache, loop1Cache, loop2Frame, Nat.add_zero]
          by_cases h1 : i = 0
          · subst h1
            rw [if_pos rfl, if_pos (show (0 : ℕ) < 1 by omega),
              if_neg (show ¬ σ (m + 1) = σ 0 from fun h => hsz h.symm)]
          · rw [if_neg h1, if_neg (show ¬ i < 1 by omega)]
  | succ j ih =>
      intro hj
      show (match animTrace nFrames renderF σ (animInit r) (nFrames + j) with
        | some (_, s2) => animStep nFrames renderF (σ (nFrames + j + 1)) s2
        | Option.none => Option.none) = _
      rw [ih (by omega)]
      dsimp only
      rw [animStep_cached_inner nFrames renderF (σ (nFrames + j + 1))
        ⟨j + 1, r - 1, false, loop2Cache nFrames renderF σ (j + 1)⟩
        (by show r - 1 ≠ 0; omega) rfl hj]
      have hslot : loop2Cache nFrames renderF σ (j + 1) (j + 1) =
          some (renderF (j + 1) (σ (j + 1)), σ (j + 1)) := by
        simp only [loop2Cache, loop1Cache]
        rw [if_neg (by omega), if_pos hj]
      by_cases hsz : σ (j + 1) = σ (nFrames + j + 1)
      · have hslot2 : (((⟨j + 1, r - 1, false,
            loop2Cache nFrames renderF σ (j + 1)⟩ : AnimState)).cache
              (j + 1)) =
            some (renderF (j + 1) (σ (j + 1)), σ (nFrames + j + 1)) := by
          show loop2Cache nFrames renderF σ (j + 1) (j + 1) = _
          rw [hslot]
          exact congrArg some (Prod.ext rfl hsz)
        rw [cachedEmit_hit renderF (σ (nFrames + j + 1)) _
          (renderF (j + 1) (σ (j + 1))) hslot2]
        refine congrArg some (Prod.ext ?_ ?_)
        · show renderF (j + 1) (σ (j + 1)) =
            loop2Frame nFrames renderF σ (j + 1)
          simp only [loop2Frame]
          rw [if_pos (by rw [← Nat.add_assoc]; exact hsz.symm)]
        · refine AnimState.ext rfl rfl rfl ?_
          funext i
          show loop2Cache nFrames renderF σ (j + 1) i =
            loop2Cache nFrames renderF σ (j + 2) i
          simp only [loop2Cache, loop1Cache, loop2Frame]
          rcases lt_trichotomy i (j + 1) with h1 | h1 | h1
          · rw [if_pos h1, if_pos (show i < j + 2 by omega)]
          · subst h1
            rw [if_neg (show ¬ j + 1 < j + 1 by omega),
              if_pos (show j + 1 < j + 2 by omega), if_pos hj,
              if_pos (show σ (nFrames + (j + 1)) = σ (j + 1) by
                rw [← Nat.add_assoc]; exact hsz.symm)]
            refine congrArg some (Prod.ext rfl ?_)
            show σ (j + 1) = σ (nFrames + (j + 1))
            rw [← Nat.add_assoc]
            exact hsz
          · rw [if_neg (show ¬ i < j + 1 by omega),
              if_neg (show ¬ i < j + 2 by omega)]
      · rw [cachedEmit_miss renderF (σ (nFrames + j + 1)) _
          (renderF (j + 1) (σ (j + 1))) (σ (j + 1)) hslot hsz]
        refine congrArg some (Prod.ext ?_ ?_)
        · show renderF (j + 1) (σ (nFrames + j + 1)) =
            loop2Frame nFrames renderF σ (j + 1)
          simp only [loop2Frame]
          rw [if_neg (by rw [← Nat.add_assoc]; exact fun h => hsz h.symm),
            ← Nat.add_assoc]
        · refine AnimState.ext rfl rfl rfl ?_
          funext i
          show (if i = j + 1 then
              some (renderF (j + 1) (σ (nFrames + j + 1)),
                σ (nFrames + j + 1))
            else loop2Cache nFrames renderF σ (j + 1) i) =
            loop2Cache nFrames renderF σ (j + 2) i
          simp only [loop2Cache, loop1Cache, loop2Frame]
          rcases lt_trichotomy i (j + 1) with h1 | h1 | h1
          · rw [if_neg (show ¬ i = j + 1 by omega), if_pos h1,
              if_pos (show i < j + 2 by omega)]
          · subst h1
            rw [if_pos rfl, if_pos (show j + 1 < j + 2 by omega),
              if_neg (show ¬ σ (nFrames + (j + 1)) = σ (j + 1) by
                rw [← Nat.add_assoc]; exact fun h => hsz h.symm)]
            refine congrArg some (Prod.ext ?_ ?_)
            · show renderF (j + 1) (σ (nFrames + j + 1)) =
                renderF (j + 1) (σ (nFrames + (j + 1)))
              rw [← Nat.add_assoc]
            · show σ (nFrames + j + 1) = σ (nFrames + (j + 1))
              rw [← Nat.add_assoc]
          · rw [if_neg (show ¬ i = j + 1 by omega),
              if_neg (show ¬ i < j + 1 by omega),
              if_neg (show ¬ i < j + 2 by omega)]

/-- C3: for an animation iterator with repeat count ≥ 2 over a
definite-frame-count image (caching enabled), the frame emitted for
offset `k` on loop 1 is a fresh render; the frame emitted for offset `k`
on loop 2 is **identical** (the cached frame returned verbatim) when the
rendered-size fingerprint is unchanged between the two visits, and
otherwise is re-rendered at the new size with the cache slot for offset
`k` updated to the new frame and fingerprint. -/
theorem second_loop_cached_frame_identity
    (nFrames : ℕ) (renderF : ℕ → SizeFp → String) (σ : ℕ → SizeFp) (r : ℤ)
    (k : ℕ) (hnf : 1 ≤ nFrames) (hr : 2 ≤ r) (hk : k < nFrames) :
    ((animTrace nFrames renderF σ (animInit r) k).map Prod.fst =
      some (renderF k (σ k))) ∧
    (σ (nFrames + k) = σ k →
      (animTrace nFrames renderF σ (animInit r) (nFrames + k)).map Prod.fst =
        (animTrace nFrames renderF σ (animInit r) k).map Prod.fst) ∧
    (σ (nFrames + k) ≠ σ k →
      (animTrace nFrames renderF σ (animInit r) (nFrames + k)).map
          Prod.fst = some (renderF k (σ (nFrames + k))) ∧
      ∃ s2, (animTrace nFrames renderF σ (animInit r)
          (nFrames + k)).map Prod.snd = some s2 ∧
        s2.cache k =
          some (renderF k (σ (nFrames + k)), σ (nFrames + k))) := by
  have h1 := animTrace_loop1 nFrames renderF σ r (by omega) k hk
  have h2 := animTrace_loop2 nFrames renderF σ r hnf hr k hk
  refine ⟨?_, ?_, ?_⟩
  · rw [h1]
    rfl
  · intro hsz
    rw [h1, h2]
    show some (loop2Frame nFrames renderF σ k) = some (renderF k (σ k))
    unfold loop2Frame
    rw [if_pos hsz]
  · intro hsz
    constructor
    · rw [h2]
      show some (loop2Frame nFrames renderF σ k) =
        some (renderF k (σ (nFrames + k)))
      unfold loop2Frame
      rw [if_neg hsz]
    · refine ⟨⟨k + 1, r - 1, false, loop2Cache nFrames renderF σ (k + 1)⟩,
        ?_, ?_⟩
      · rw [h2]
        rfl
      · show (if k < k + 1 then
            some (loop2Frame nFrames renderF σ k, σ (nFrames + k))
          else loop1Cache renderF σ nFrames k) = _
        rw [if_pos (show k < k + 1 by omega)]
        unfold loop2Frame
        rw [if_neg hsz]

/-- C3 witness: a 2-frame animation with repeat 2.  With a constant size
schedule the loop-2 emission at offset 0 equals the loop-1 emission
verbatim; with a size change between the loops it is a fresh render at
the new size. -/
theorem second_loop_cached_frame_identity_witness :
    ((animTrace 2 (fun k sz => toString (k, sz)) (fun _ => ((1 : ℤ), (1 : ℤ)))
        (animInit 2) 2).map Prod.fst =
      (animTrace 2 (fun k sz => toString (k, sz)) (fun _ => ((1 : ℤ), (1 : ℤ)))
        (animInit 2) 0).map Prod.fst) ∧
    ((animTrace 2 (fun k sz => toString (k, sz))
        (fun t => if t < 2 then ((1 : ℤ), (1 : ℤ)) else (5, 5))
        (animInit 2) 2).map Prod.fst = some "(0, (5, 5))") :=
  ⟨(second_loop_cached_frame_identity 2 (fun k sz => toString (k, sz))
      (fun _ => ((1 : ℤ), (1 : ℤ))) 2 0 (by decide) (by decide)
      (by decide)).2.1 rfl,
    ((second_loop_cached_frame_identity 2 (fun k sz => toString (k, sz))
      (fun t => if t < 2 then ((1 : ℤ), (1 : ℤ)) else (5, 5)) 2 0 (by decide)
      (by decide) (by decide)).2.2 (by decide)).1.trans (by decide)⟩

theorem parseHAlign_sound (cs : List Char) (c : Char)
    (h : (parseHAlign cs).1 = some c) : isHAlignChar c = true := by
  unfold parseHAlign at h
  cases cs with
  | nil => exact Option.noConfusion h
  | cons c2 rest =>
      dsimp only at h
      by_cases h2 : isHAlignChar c2
      · rw [if_pos h2] at h
        injection h with h
        rw [← h]
        exact h2
      · rw [if_neg h2] at h
        exact Option.noConfusion h

theorem parseVAlign_sound (cs : List Char) (c : Char)
    (h : (parseVAlign cs).1 = some c) : isVAlignChar c = true := by
  unfold parseVAlign at h
  cases cs with
  | nil => exact Option.noConfusion h
  | cons c2 rest =>
      dsimp only at h
      by_cases h2 : isVAlignChar c2
      · rw [if_pos h2] at h
        injection h with h
        rw [← h]
        exact h2
      · rw [if_neg h2] at h
        exact Option.noConfusion h

theorem parseDotGroup_vAlign_sound (cs : List Char) (c : Char)
    (h : (parseDotGroup cs).2.1 = some c) : isVAlignChar c = true := by
  unfold parseDotGroup at h
  cases cs with
  | nil => exact Option.noConfusion h
  | cons c2 rest =>
      dsimp only at h
      by_cases h2 : c2 = '.'
      · rw [if_pos h2] at h
        rcases hva : parseVAlign rest with ⟨va, rest1⟩
        rw [hva] at h
        dsimp only at h
        exact parseVAlign_sound rest c (by rw [hva]; exact h)
      · rw [if_neg h2] at h
        exact Option.noConfusion h

theorem matchAlignWidth_hAlign_sound (cs : List Char) (c : Char)
    (h : (matchAlignWidth cs).1 = some c) : isHAlignChar c = true := by
  unfold matchAlignWidth at h
  rcases hha : parseHAlign cs with ⟨ha, csA⟩
  rw [hha] at h
  dsimp only at h
  exact parseHAlign_sound cs c (by rw [hha]; exact h)

/-- The groups of a full `_FORMAT_SPEC` match conform to the
mini-language's alphabets: `h_align ∈ {<,|,>}` and `v_align ∈ {^,-,_}`. -/
theorem matchFormatSpec_align_sound (cs : List Char) (g : FormatGroups)
    (hg : matchFormatSpec cs = some g) :
    (∀ c, g.hAlign = some c → isHAlignChar c = true) ∧
    (∀ c, g.vAlign = some c → isVAlignChar c = true) := by
  unfold matchFormatSpec at hg
  rcases hmw : matchAlignWidth cs with ⟨ha, wd, cs1⟩
  rw [hmw] at hg
  dsimp only at hg
  rcases hdg : parseDotGroup cs1 with ⟨dot, va, hd, cs2⟩
  rw [hdg] at hg
  dsimp only at hg
  rcases hag : parseAlphaGroup cs2 with ⟨hash, inner, cs3⟩
  rw [hag] at hg
  dsimp only at hg
  split at hg
  · injection hg with hg
    subst hg
    refine ⟨?_, ?_⟩
    · intro c hc
      exact matchAlignWidth_hAlign_sound cs c (by rw [hmw]; exact hc)
    · intro c hc
      exact parseDotGroup_vAlign_sound cs1 c (by rw [hdg]; exact hc)
  · exact Option.noConfusion hg

/-- A successful `_check_format_spec` only returns components inside the
mini-language: alignment characters from the allowed sets and positive
padding dimensions. -/
theorem check_format_spec_sound (cs : List Char) (r : FormatResult)
    (h : check_format_spec cs = .ok r) :
    (∀ c, r.hAlign = some c → isHAlignChar c = true) ∧
    (∀ n, r.width = some n → 0 < n) ∧
    (∀ c, r.vAlign = some c → isVAlignChar c = true) ∧
    (∀ n, r.height = some n → 0 < n) := by
  unfold check_format_spec at h
  split at h
  · exact Except.noConfusion h
  · rename_i g hmf
    split at h
    · exact Except.noConfusion h
    · dsimp only at h
      have halign := matchFormatSpec_align_sound cs g hmf
      have hbuild : ∀ hOpt, .ok r =
            (Except.ok (check_format_spec.buildResult g hOpt) :
              Except FormatFailure FormatResult) →
          (∀ n2, g.widthDigits.map digitsToNat = some n2 → 0 < n2) →
          (∀ n2, hOpt = some n2 → 0 < n2) →
          (∀ c, r.hAlign = some c → isHAlignChar c = true) ∧
          (∀ n, r.width = some n → 0 < n) ∧
          (∀ c, r.vAlign = some c → isVAlignChar c = true) ∧
          (∀ n, r.height = some n → 0 < n) := by
        intro hOpt he hw hh
        injection he with he
        subst he
        refine ⟨halign.1, ?_, halign.2, ?_⟩
        · intro n hn
          exact hw n hn
        · intro n hn
          exact hh n hn
      split at h
      · rename_i n hn
        split at h
        · exact Except.noConfusion h
        · rename_i hn0
          unfold check_format_spec.checkHeightAndAlpha at h
          split at h
          · rename_i m hm
            split at h
            · exact Except.noConfusion h
            · rename_i hm0
              refine hbuild _ h.symm ?_ ?_
              · intro n2 hn2
                rw [hn] at hn2
                injection hn2 with hn2
                omega
              · intro n2 hn2
                rw [hm] at hn2
                injection hn2 with hn2
                omega
          · rename_i hm
            refine hbuild _ h.symm ?_ ?_
            · intro n2 hn2
              rw [hn] at hn2
              injection hn2 with hn2
              omega
            · intro n2 hn2
              rw [hm] at hn2
              exact Option.noConfusion hn2
      · rename_i hn
        unfold check_format_spec.checkHeightAndAlpha at h
        split at h
        · rename_i m hm
          split at h
          · exact Except.noConfusion h
          · rename_i hm0
            refine hbuild _ h.symm ?_ ?_
            · intro n2 hn2
              rw [hn] at hn2
              exact Option.noConfusion hn2
            · intro n2 hn2
              rw [hm] at hn2
              injection hn2 with hn2
              omega
        · rename_i hm
          refine hbuild _ h.symm ?_ ?_
          · intro n2 hn2
            rw [hn] at hn2
            exact Option.noConfusion hn2
          · intro n2 hn2
            rw [hm] at hn2
            exact Option.noConfusion hn2

/-- C8: the specifier `"|10.^5#ff0000"` parses to h_align = center
(`|`), padding width 10, v_align = top (`^`), padding height 5 and
background color `#ff0000`; every successful parse conforms to the
mini-language `[h_align][width][.[v_align][height]][#[threshold|hex]]
[+suffix]` (alignments from `{<,|,>}` / `{^,-,_}`, positive dimensions);
and invalid or incomplete specifiers fail with an error naming the
offending input (`"10."`, a dot with nothing valid after it, is
rejected naming the specifier; `"|0"` is rejected naming the
non-positive width). -/
theorem format_spec_parses_mini_language :
    (check_format_spec "|10.^5#ff0000".toList =
      .ok ⟨some '|', some 10, some '^', some 5,
        .color "#ff0000".toList, Option.none⟩) ∧
    (∀ cs r, check_format_spec cs = .ok r →
      (∀ c, r.hAlign = some c → isHAlignChar c = true) ∧
      (∀ n, r.width = some n → 0 < n) ∧
      (∀ c, r.vAlign = some c → isVAlignChar c = true) ∧
      (∀ n, r.height = some n → 0 < n)) ∧
    (check_format_spec "10.".toList = .error (.invalidSpec "10.".toList)) ∧
    (check_format_spec "|0".toList = .error (.nonPositiveWidth 0)) :=
  ⟨by decide, check_format_spec_sound, by decide, by decide⟩

/-- C8 witness: the mini-language soundness applied to the concrete
parse of `"|10.^5#ff0000"`. -/
theorem format_spec_parses_mini_language_witness :
    ∀ n, (⟨some '|', some 10, some '^', some 5,
        .color "#ff0000".toList, Option.none⟩ : FormatResult).width =
      some n → 0 < n :=
  (format_spec_parses_mini_language.2.1 "|10.^5#ff0000".toList
    ⟨some '|', some 10, some '^', some 5, .color "#ff0000".toList,
      Option.none⟩ format_spec_parses_mini_language.1).2.1

/-- C4: a closed `ImageIterator` — closed explicitly via `close()` or
automatically when an advance reports exhaustion — answers every
subsequent advance with exactly the closed-state `StopIteration`
("Iterator exhausted or closed"), never any other fault, and leaves the
state untouched; `close()` itself is idempotent and never fails. -/
theorem closed_iterator_behaviour
    (nFrames : ℕ) (renderF : ℕ → SizeFp → String) (sz : SizeFp) :
    (∀ s : IterState, s.animator = Option.none →
      iterNext nFrames renderF sz s = (.error .exhaustedOrClosed, s)) ∧
    (∀ s : IterState, (iterClose s).animator = Option.none) ∧
    (∀ (s : IterState) (e : IterStop) (s2 : IterState),
      iterNext nFrames renderF sz s = (.error e, s2) →
      s2.animator = Option.none) ∧
    (∀ s : IterState, iterClose (iterClose s) = iterClose s) := by
  refine ⟨?_, ?_, ?_, ?_⟩
  · intro s hs
    unfold iterNext
    rw [hs]
  · intro s
    rfl
  · intro s e s2 h
    unfold iterNext at h
    cases hs : s.animator with
    | none =>
        rw [hs] at h
        injection h with h1 h2
        rw [← h2]
        exact hs
    | some a =>
        rw [hs] at h
        dsimp only at h
        cases hstep : animStep nFrames renderF sz a with
        | none =>
            rw [hstep] at h
            injection h with h1 h2
            rw [← h2]
            rfl
        | some p =>
            obtain ⟨f, a2⟩ := p
            rw [hstep] at h
            injection h with h1 h2
            exact Except.noConfusion h1
  · intro s
    rfl

/-- C4 witness: the closed-state behaviour at a concrete closed state. -/
theorem closed_iterator_behaviour_witness :
    (⟨Option.none, false⟩ : IterState).animator = Option.none ∧
    iterNext 3 (fun k _ => toString k) (1, 1) ⟨Option.none, false⟩ =
      (.error .exhaustedOrClosed, ⟨Option.none, false⟩) :=
  ⟨rfl, (closed_iterator_behaviour 3 (fun k _ => toString k) (1, 1)).1
    ⟨Option.none, false⟩ rfl⟩

theorem writeCount_flatMap_groups (L : ℤ) (rest : List String) :
    writeCount (rest.flatMap fun fr =>
      [.sleep, .cr, .moveUp (L - 1), .write fr]) = rest.length := by
  induction rest with
  | nil => rfl
  | cons g t ih =>
      simp only [List.flatMap_cons, writeCount, List.filter_append,
        List.length_append] at ih ⊢
      rw [ih]
      simp [isWriteEvent, List.filter]
      omega

theorem moveUpCount_flatMap_groups (L : ℤ) (rest : List String) :
    moveUpCount (rest.flatMap fun fr =>
      [.sleep, .cr, .moveUp (L - 1), .write fr]) = rest.length := by
  induction rest with
  | nil => rfl
  | cons g t ih =>
      simp only [List.flatMap_cons, moveUpCount, List.filter_append,
        List.length_append] at ih ⊢
      rw [ih]
      simp [isMoveUpEvent, List.filter]
      omega

theorem moveUp_mem_flatMap_groups (L : ℤ) (rest : List String) (n : ℤ)
    (h : TermEvent.moveUp n ∈ rest.flatMap fun fr =>
      [.sleep, .cr, .moveUp (L - 1), .write fr]) : n = L - 1 := by
  induction rest with
  | nil => simp at h
  | cons g t ih =>
      simp only [List.flatMap_cons, List.mem_append, List.mem_cons,
        List.not_mem_nil, or_false] at h
      rcases h with (h | h | h | h) | h
      · exact absurd h (by simp)
      · exact absurd h (by simp)
      · injection h
      · exact absurd h (by simp)
      · exact ih (by simpa using h)

theorem animOutputs_three_frames_two_loops
    (renderF : ℕ → SizeFp → String) :
    animOutputs 3 renderF (fun _ => (1, 1)) 0 (animInit 2) 7 =
      [renderF 0 (1, 1), renderF 1 (1, 1), renderF 2 (1, 1),
        renderF 0 (1, 1), renderF 1 (1, 1), renderF 2 (1, 1)] := rfl

/-- C5 counterexample to the claim as stated: at rendered height 1 on a
24-line terminal with the default vertical allowance 2 and no padding
height, the second frame is printed after a cursor-up of `21` lines —
the formatted-output height minus one — not `rendered-height − 1 = 0`. -/
theorem display_cursor_up_claim_counterexample :
    display_animated ["a", "b"] (displayLines Option.none 24 2 1) =
      [.write "a", .sleep, .cr, .moveUp 21, .write "b", .moveDown 22] ∧
    TermEvent.moveUp (1 - 1) ∉
      display_animated ["a", "b"] (displayLines Option.none 24 2 1) ∧
    (21 : ℤ) ≠ 1 - 1 :=
  ⟨by decide, by decide, by decide⟩

/-- C5 (amended): during an animated draw every frame after the first is
printed after repositioning the cursor up exactly `L − 1` lines, where
`L = max(padding height — defaulting to terminal height minus vertical
allowance — , rendered height)` is the height of the formatted frame;
this equals `rendered-height − 1` exactly when that padding height does
not exceed the rendered height.  The trace writes exactly one frame per
yield — one cursor-up per frame after the first — and a 3-frame
animation drawn for 2 loops produces exactly 6 frame writes. -/
theorem display_animated_overwrites
    (frames : List String) (padHeight : Option ℤ) (termH vAllow rH : ℤ) :
    (writeCount (display_animated frames
      (displayLines padHeight termH vAllow rH)) = frames.length) ∧
    (∀ n, TermEvent.moveUp n ∈ display_animated frames
        (displayLines padHeight termH vAllow rH) →
      n = displayLines padHeight termH vAllow rH - 1) ∧
    (moveUpCount (display_animated frames
      (displayLines padHeight termH vAllow rH)) = frames.length - 1) ∧
    (padHeight.getD (termH - vAllow) ≤ rH →
      displayLines padHeight termH vAllow rH - 1 = rH - 1) ∧
    (∀ renderF : ℕ → SizeFp → String,
      writeCount (display_animated
        (animOutputs 3 renderF (fun _ => (1, 1)) 0 (animInit 2) 7)
        (displayLines padHeight termH vAllow rH)) = 6) := by
  refine ⟨?_, ?_, ?_, ?_, ?_⟩
  · cases frames with
    | nil => rfl
    | cons f rest =>
        show writeCount (.write f :: (rest.flatMap fun fr =>
          [.sleep, .cr, .moveUp (displayLines padHeight termH vAllow rH - 1),
            .write fr]) ++ [.moveDown (displayLines padHeight termH
              vAllow rH)]) = rest.length + 1
        simp only [writeCount, List.filter_cons, List.filter_append,
          List.length_append]
        have h1 := writeCount_flatMap_groups
          (displayLines padHeight termH vAllow rH) rest
        simp only [writeCount] at h1
        simp [isWriteEvent, h1]
  · intro n hn
    cases frames with
    | nil =>
        simp only [display_animated, List.mem_singleton] at hn
        exact absurd hn (by simp)
    | cons f rest =>
        simp only [display_animated, List.mem_cons, List.mem_append,
          List.mem_singleton] at hn
        rcases hn with (hn | hn) | hn
        · exact absurd hn (by simp)
        · exact moveUp_mem_flatMap_groups _ rest n hn
        · exact absurd hn (by simp)
  · cases frames with
    | nil => rfl
    | cons f rest =>
        show moveUpCount (.write f :: (rest.flatMap fun fr =>
          [.sleep, .cr, .moveUp (displayLines padHeight termH vAllow rH - 1),
            .write fr]) ++ [.moveDown (displayLines padHeight termH
              vAllow rH)]) = (rest.length + 1) - 1
        simp only [moveUpCount, List.filter_cons, List.filter_append,
          List.length_append]
        have h1 := moveUpCount_flatMap_groups
          (displayLines padHeight termH vAllow rH) rest
        simp only [moveUpCount] at h1
        simp [isMoveUpEvent, h1]
  · intro hle
    unfold displayLines
    omega
  · intro renderF
    rw [animOutputs_three_frames_two_loops]
    show writeCount (display_animated
      (renderF 0 (1, 1) :: [renderF 1 (1, 1), renderF 2 (1, 1),
        renderF 0 (1, 1), renderF 1 (1, 1), renderF 2 (1, 1)])
      (displayLines padHeight termH vAllow rH)) = 6
    show writeCount (.write (renderF 0 (1, 1)) ::
      ([renderF 1 (1, 1), renderF 2 (1, 1), renderF 0 (1, 1),
        renderF 1 (1, 1), renderF 2 (1, 1)].flatMap fun fr =>
          [.sleep, .cr,
            .moveUp (displayLines padHeight termH vAllow rH - 1),
            .write fr]) ++ [.moveDown (displayLines padHeight termH
              vAllow rH)]) = 6
    simp only [writeCount, List.filter_cons, List.filter_append,
      List.length_append]
    have h1 := writeCount_flatMap_groups
      (displayLines padHeight termH vAllow rH)
      [renderF 1 (1, 1), renderF 2 (1, 1), renderF 0 (1, 1),
        renderF 1 (1, 1), renderF 2 (1, 1)]
    simp only [writeCount] at h1
    simp [isWriteEvent, h1]

theorem foldl_output_preserves_cursor_echo (es : List TermEvent)
    (st : TermState) (h : ∀ e ∈ es, isOutputEvent e = true) :
    (es.foldl applyEvent st).cursorVisible = st.cursorVisible ∧
    (es.foldl applyEvent st).echo = st.echo := by
  induction es generalizing st with
  | nil => exact ⟨rfl, rfl⟩
  | cons e t ih =>
      have he : isOutputEvent e = true := h e (List.mem_cons_self e t)
      have ht : ∀ e2 ∈ t, isOutputEvent e2 = true :=
        fun e2 h2 => h e2 (List.mem_cons_of_mem e h2)
      have hstep : (applyEvent st e).cursorVisible = st.cursorVisible ∧
          (applyEvent st e).echo = st.echo := by
        cases e <;> first
          | exact ⟨rfl, rfl⟩
          | exact absurd he (by simp [isOutputEvent])
      have := ih (applyEvent st e) ht
      exact ⟨this.1.trans hstep.1, this.2.trans hstep.2⟩

theorem display_animated_output_only (frames : List String) (lines : ℤ) :
    ∀ e ∈ display_animated frames lines, isOutputEvent e = true := by
  cases frames with
  | nil =>
      intro e he
      simp only [display_animated, List.mem_singleton] at he
      subst he
      rfl
  | cons f rest =>
      intro e he
      simp only [display_animated, List.mem_cons, List.mem_append,
        List.mem_singleton, List.not_mem_nil, or_false] at he
      rcases he with (he | he) | he
      · subst he
        rfl
      · induction rest with
        | nil => simp at he
        | cons g t ih =>
            simp only [List.flatMap_cons, List.mem_append, List.mem_cons,
              List.not_mem_nil, or_false] at he
            rcases he with (he | he | he | he) | he
            all_goals try (subst he; rfl)
            exact ih (by simpa using he)
      · subst he
        rfl

/-- C6: in `draw`, the cursor is hidden (and — per the spec's
Renderable-API echo contract, modelled here — terminal echo suppressed)
exactly when the output stream is interactive; and on **every** exit
path — normal completion, an exception, or an interrupt cutting the body
at any point `k`, including during the pacing sleep — the `finally`
clauses leave the terminal restored: cursor visible, echo on, color
reset.  The events an animated body emits are all plain output events,
so the guarantee covers animated draws in particular. -/
theorem draw_restores_terminal_state
    (isatty : Bool) (body : List TermEvent) (k : ℕ)
    (hbody : ∀ e ∈ body, isOutputEvent e = true) :
    ((runEvents (drawTrace isatty body k)).cursorVisible = true ∧
      (runEvents (drawTrace isatty body k)).echo = true ∧
      (runEvents (drawTrace isatty body k)).colored = false) ∧
    (TermEvent.hideCursor ∈ drawTrace isatty body k ↔ isatty = true) ∧
    (TermEvent.echoOff ∈ drawTrace isatty body k ↔ isatty = true) ∧
    (∀ frames lines, ∀ e ∈ display_animated frames lines,
      isOutputEvent e = true) := by
  have htake : ∀ e ∈ body.take k, isOutputEvent e = true :=
    fun e he => hbody e (List.mem_of_mem_take he)
  refine ⟨?_, ?_, ?_, fun frames lines => display_animated_output_only
    frames lines⟩
  · cases isatty with
    | false =>
        simp only [drawTrace, drawRenderTrace, truncatedBody,
          if_neg (by simp : ¬ (false : Bool) = true), runEvents,
          List.nil_append, List.append_nil, List.foldl_append]
        have hpres := foldl_output_preserves_cursor_echo (body.take k)
          { cursorVisible := true, echo := true, colored := false } htake
        exact ⟨hpres.1, hpres.2, rfl⟩
    | true =>
        simp only [drawTrace, drawRenderTrace, truncatedBody, if_pos rfl,
          runEvents, List.foldl_append, List.append_assoc,
          List.cons_append, List.nil_append]
        exact ⟨rfl, rfl, rfl⟩
  · cases isatty with
    | false =>
        simp only [drawTrace, drawRenderTrace, truncatedBody,
          if_neg (by simp : ¬ (false : Bool) = true), List.nil_append,
          List.append_nil, List.mem_append, List.mem_singleton]
        constructor
        · rintro (hm | hm)
          · have := htake _ hm
            simp [isOutputEvent] at this
          · exact absurd hm (by simp)
        · intro hf
          exact absurd hf (by simp)
    | true =>
        simp only [drawTrace, drawRenderTrace, truncatedBody, if_pos rfl,
          List.mem_append, List.mem_cons, List.mem_singleton]
        constructor
        · intro _
          trivial
        · intro _
          simp
  · cases isatty with
    | false =>
        simp only [drawTrace, drawRenderTrace, truncatedBody,
          if_neg (by simp : ¬ (false : Bool) = true), List.nil_append,
          List.append_nil, List.mem_append, List.mem_singleton]
        constructor
        · rintro (hm | hm)
          · have := htake _ hm
            simp [isOutputEvent] at this
          · exact absurd hm (by simp)
        · intro hf
          exact absurd hf (by simp)
    | true =>
        simp only [drawTrace, drawRenderTrace, truncatedBody, if_pos rfl,
          List.mem_append, List.mem_cons, List.mem_singleton]
        constructor
        · intro _
          simp
        · intro _
          simp

/-- C6 witness: an interactive animated draw of two frames, interrupted
after three body events, still restores the terminal. -/
theorem draw_restores_terminal_state_witness :
    (∀ e ∈ display_animated ["a", "b"] 22, isOutputEvent e = true) ∧
    ((runEvents (drawTrace true (display_animated ["a", "b"] 22)
        3)).cursorVisible = true ∧
      (runEvents (drawTrace true (display_animated ["a", "b"] 22)
        3)).echo = true ∧
      (runEvents (drawTrace true (display_animated ["a", "b"] 22)
        3)).colored = false) :=
  ⟨by decide,
    (draw_restores_terminal_state true (display_animated ["a", "b"] 22) 3
      (by decide)).1⟩

end TermImage